import Mathlib

/-!
# Suika game: physics, collision and merge loop

A shallow embedding of `src/main.cpp`.  The C++ `float` is modelled by an arbitrary
linearly ordered field `α` (exact arithmetic; `ℚ` for evaluation, `ℝ` for the reals),
`sqrtf` is passed as a parameter, `int` is `Int`, the `long long` score is an `Int` whose
update wraps to 64 bits, the global variables are the fields of `State`, and
`std::vector<Fruit>` is a `List` accessed by index.
A read of the fixed-size table `FRUIT_RADIUS` outside its eleven entries has no defined
result in C++; here it makes the enclosing operation return `none`.
-/

namespace Suika

/-- Raylib `Vector2`. -/
structure Vector2 (α : Type) where
  x : α
  y : α

/-- The `Fruit` struct. -/
structure Fruit (α : Type) where
  pos : Vector2 α
  vel : Vector2 α
  level : Int
  radius : α
  mergeCooldown : α
  settled : Bool
  remove : Bool

/-- The global variables `fruits`, `gameOver`, `hasActiveFruit`, `score`, `nextFruitLevel`.
`score` is a `long long`: its value is an `Int` and the update `score +=` wraps to 64 bits
(`wrapInt64`). -/
structure State (α : Type) where
  fruits : List (Fruit α)
  gameOver : Bool
  hasActiveFruit : Bool
  score : Int
  nextFruitLevel : Int

/-- Outcome of a loop body: the loop goes on, the function executed `return`,
or an out-of-bounds read happened. -/
inductive Flow (σ : Type) where
  | next (s : σ) : Flow σ
  | ret (s : σ) : Flow σ
  | fault : Flow σ

section Constants

def SCREEN_WIDTH : Int := 540
def SCREEN_HEIGHT : Int := 760
def NUM_FRUIT_LEVELS : Int := 11
def MIN_SPAWN_LEVEL : Int := 0
def MAX_SPAWN_LEVEL : Int := 4

variable {α : Type} [LinearOrderedField α]

def GRAVITY : α := 1400
/-- The constant `0.25f`. -/
def FLOOR_DAMPING : α := 1 / 4
/-- The constant `0.45f`. -/
def WALL_DAMPING : α := 9 / 20
def SETTLE_VEL : α := 20
def WALL_THICKNESS : α := 24
/-- The constant `0.4f`. -/
def MERGE_COOLDOWN : α := 2 / 5
def GAME_OVER_LINE : α := 90

/-- Fruit sizes, one per level. -/
def FRUIT_RADIUS : List α := [20, 26, 32, 38, 44, 52, 60, 68, 78, 88, 100]

/-- The read `FRUIT_RADIUS[level]` with an `int` index: defined only inside the table. -/
def readFruitRadius (level : Int) : Option α :=
  if 0 ≤ level then (FRUIT_RADIUS : List α)[level.toNat]? else none

end Constants

section Code

variable {α : Type} [LinearOrderedField α]

/-- `GetNextFruitLevel`; the raylib random source is a parameter. -/
def GetNextFruitLevel (GetRandomValue : Int → Int → Int) : Int :=
  GetRandomValue MIN_SPAWN_LEVEL MAX_SPAWN_LEVEL

/-- `SpawnFruit(x, level)`. -/
def SpawnFruit (x : α) (level : Int) (s : State α) : Option (State α) :=
  match readFruitRadius level with
  | none => none
  | some r =>
    let f : Fruit α :=
      { pos := ⟨x, 60⟩
        vel := ⟨0, 0⟩
        level := level
        radius := r
        mergeCooldown := MERGE_COOLDOWN
        settled := false
        remove := false }
    some { s with fruits := s.fruits ++ [f], hasActiveFruit := true }

/-- The statements of the `UpdatePhysics` loop body that change the fruit itself. -/
def updateFruit (dt : α) (f : Fruit α) : Fruit α :=
  let f : Fruit α := { f with vel := ⟨f.vel.x, f.vel.y + GRAVITY * dt⟩ }
  let f : Fruit α := { f with pos := ⟨f.pos.x + f.vel.x * dt, f.pos.y⟩ }
  let f : Fruit α := { f with pos := ⟨f.pos.x, f.pos.y + f.vel.y * dt⟩ }
  let f : Fruit α := if 0 < f.mergeCooldown then { f with mergeCooldown := f.mergeCooldown - dt } else f
  -- Floor
  let f :=
    if f.pos.y + f.radius ≥ (SCREEN_HEIGHT : α) - WALL_THICKNESS then
      let f : Fruit α := { f with pos := ⟨f.pos.x, (SCREEN_HEIGHT : α) - WALL_THICKNESS - f.radius⟩ }
      let f : Fruit α := { f with vel := ⟨f.vel.x, f.vel.y * -FLOOR_DAMPING⟩ }
      if |f.vel.y| < SETTLE_VEL then
        { f with vel := ⟨f.vel.x, 0⟩, settled := true }
      else f
    else f
  -- Walls
  let f :=
    if f.pos.x - f.radius ≤ WALL_THICKNESS then
      { f with pos := ⟨WALL_THICKNESS + f.radius, f.pos.y⟩, vel := ⟨f.vel.x * -WALL_DAMPING, f.vel.y⟩ }
    else f
  let f :=
    if f.pos.x + f.radius ≥ (SCREEN_WIDTH : α) - WALL_THICKNESS then
      { f with pos := ⟨(SCREEN_WIDTH : α) - WALL_THICKNESS - f.radius, f.pos.y⟩,
               vel := ⟨f.vel.x * -WALL_DAMPING, f.vel.y⟩ }
    else f
  f

/-- The range-for loop of `UpdatePhysics`: every fruit is updated in place, then the two
global flags are updated from the fruit as it is after its update. -/
def physicsLoop (dt : α) : List (Fruit α) → Bool → Bool → List (Fruit α) × Bool × Bool
  | [], active, over => ([], active, over)
  | f :: rest, active, over =>
    let f := updateFruit dt f
    let active := if !f.settled then true else active
    let over := if f.settled && decide (f.pos.y - f.radius < GAME_OVER_LINE) then true else over
    let r := physicsLoop dt rest active over
    (f :: r.1, r.2.1, r.2.2)

/-- `UpdatePhysics(dt)`. -/
def UpdatePhysics (dt : α) (s : State α) : State α :=
  let r := physicsLoop dt s.fruits false s.gameOver
  { s with fruits := r.1, hasActiveFruit := r.2.1, gameOver := r.2.2 }

/-- The value `dist` computed for the pair `a`, `b`: the length of `b.pos - a.pos`. -/
def centreDist (sqrtf : α → α) (a b : Fruit α) : α :=
  let d : Vector2 α := ⟨b.pos.x - a.pos.x, b.pos.y - a.pos.y⟩
  sqrtf (d.x * d.x + d.y * d.y)

/-- The condition of the merge `if`. -/
def canMerge (a b : Fruit α) : Prop :=
  a.level = b.level ∧ a.mergeCooldown ≤ 0 ∧ b.mergeCooldown ≤ 0 ∧
    a.level < NUM_FRUIT_LEVELS - 1

instance (a b : Fruit α) : Decidable (canMerge a b) := by
  unfold canMerge; infer_instance

/-- The "Push apart" statements: the pair with corrected positions. -/
def pushApart (sqrtf : α → α) (a b : Fruit α) : Fruit α × Fruit α :=
  let d : Vector2 α := ⟨b.pos.x - a.pos.x, b.pos.y - a.pos.y⟩
  let dist := centreDist sqrtf a b
  let minDist := a.radius + b.radius
  let n : Vector2 α := ⟨d.x / dist, d.y / dist⟩
  let overlap := minDist - dist
  let a : Fruit α :=
    { a with pos := ⟨a.pos.x - n.x * overlap * (1 / 2), a.pos.y - n.y * overlap * (1 / 2)⟩ }
  let b : Fruit α :=
    { b with pos := ⟨b.pos.x + n.x * overlap * (1 / 2), b.pos.y + n.y * overlap * (1 / 2)⟩ }
  (a, b)

/-- The value a `long long` holds after an arithmetic result `x` is stored in it:
two's-complement wrap-around to 64 bits. -/
def wrapInt64 (x : Int) : Int :=
  (x + 2 ^ 63) % 2 ^ 64 - 2 ^ 63

/-- The "Upgrade ONE fruit" statements, `r` being the value read from `FRUIT_RADIUS` at the
incremented level. -/
def upgrade (a : Fruit α) (r : α) : Fruit α :=
  { a with level := a.level + 1, radius := r, mergeCooldown := MERGE_COOLDOWN, settled := false }

/-- The "Remove the other" statement. -/
def markRemoved (b : Fruit α) : Fruit α :=
  { b with remove := true }

/-- The body of the inner loop of `ResolveCollisions` for the pair `(i, j)`. -/
def pairBody (sqrtf : α → α) (i j : Nat) (s : State α) : Flow (State α) :=
  match s.fruits[i]?, s.fruits[j]? with
  | some a, some b =>
    if a.remove || b.remove then .next s
    else
      let dist := centreDist sqrtf a b
      let minDist := a.radius + b.radius
      if 0 < dist ∧ dist < minDist then
        if canMerge a b then
          -- Upgrade ONE fruit, remove the other
          match readFruitRadius (a.level + 1) with
          | none => .fault
          | some r =>
            let a : Fruit α := upgrade a r
            let b : Fruit α := markRemoved b
            -- Score once
            let score : Int := wrapInt64 (s.score + a.level * 10)
            .ret { s with fruits := (s.fruits.set i a).set j b, score := score }
        else
          let p := pushApart sqrtf a b
          .next { s with fruits := (s.fruits.set i p.1).set j p.2 }
      else .next s
  | _, _ => .fault

/-- The inner loop `for (j = ...; j < fruits.size(); j++)`, with `k` iterations left.
The size of the vector does not change during the scan. -/
def innerLoop (sqrtf : α → α) (i : Nat) : Nat → Nat → State α → Flow (State α)
  | 0, _, s => .next s
  | k + 1, j, s =>
    match pairBody sqrtf i j s with
    | .next s => innerLoop sqrtf i k (j + 1) s
    | r => r

/-- The outer loop `for (i = ...; i < fruits.size(); i++)`, with `k` iterations left. -/
def outerLoop (sqrtf : α → α) : Nat → Nat → State α → Flow (State α)
  | 0, _, s => .next s
  | k + 1, i, s =>
    match innerLoop sqrtf i (s.fruits.length - (i + 1)) (i + 1) s with
    | .next s => outerLoop sqrtf k (i + 1) s
    | r => r

/-- The `erase(remove_if(...))` statement that ends `ResolveCollisions`. -/
def purge (s : State α) : State α :=
  { s with fruits := s.fruits.filter (fun f => !f.remove) }

/-- `ResolveCollisions()`: the scan returns from inside the merge branch, otherwise the
marked fruits are erased. -/
def ResolveCollisions (sqrtf : α → α) (s : State α) : Option (State α) :=
  match outerLoop sqrtf s.fruits.length 0 s with
  | .next s => some (purge s)
  | .ret s => some s
  | .fault => none

/-- What the frame driver reads from raylib in one iteration of the main loop. -/
structure FrameInput (α : Type) where
  /-- The value of `GetFrameTime()`. -/
  dt : α
  /-- The value of `IsMouseButtonPressed(MOUSE_LEFT_BUTTON)`. -/
  mousePressed : Bool
  /-- The value of `GetMouseX()`. -/
  mouseX : Int
  /-- The value of `IsKeyPressed(KEY_R)`. -/
  keyR : Bool
  /-- The random source as it answers the draw that follows a spawn. -/
  rndSpawn : Int → Int → Int
  /-- The random source as it answers the draw of a restart. -/
  rndRestart : Int → Int → Int

/-- The body of the spawn `if` of `main` for the requested `x`: clamp, `SpawnFruit`,
draw of the next level. -/
def spawnBlock (x : α) (rnd : Int → Int → Int) (s : State α) : Option (State α) :=
  match readFruitRadius s.nextFruitLevel with
  | some r =>
    let minX : α := WALL_THICKNESS + r
    let maxX : α := (SCREEN_WIDTH : α) - WALL_THICKNESS - r
    let x := if x < minX then minX else x
    let x := if x > maxX then maxX else x
    match SpawnFruit x s.nextFruitLevel s with
    | none => none
    | some s => some { s with nextFruitLevel := GetNextFruitLevel rnd }
  | none => none

/-- The `if (!gameOver)` block of the main loop: gated spawn, `UpdatePhysics`,
`ResolveCollisions`. -/
def simulate (sqrtf : α → α) (inp : FrameInput α) (s : State α) : Option (State α) :=
  if !s.gameOver then
    let spawned :=
      if inp.mousePressed && !s.hasActiveFruit then spawnBlock (inp.mouseX : α) inp.rndSpawn s
      else some s
    match spawned with
    | none => none
    | some s => ResolveCollisions sqrtf (UpdatePhysics inp.dt s)
  else some s

/-- The `if (gameOver)` block of the main loop, without the drawing calls. -/
def restartBlock (inp : FrameInput α) (s : State α) : State α :=
  if s.gameOver then
    if inp.keyR then
      { fruits := []
        score := 0
        gameOver := false
        hasActiveFruit := false
        nextFruitLevel := GetNextFruitLevel inp.rndRestart }
    else s
  else s

/-- One iteration of the `while (!WindowShouldClose())` loop, without the drawing calls. -/
def mainLoopIteration (sqrtf : α → α) (inp : FrameInput α) (s : State α) : Option (State α) :=
  match simulate sqrtf inp s with
  | none => none
  | some s => some (restartBlock inp s)

/-- The globals as `main` has them when it enters the loop: the initialisers of the
global variables, then `nextFruitLevel = GetNextFruitLevel()`. -/
def initialState (α : Type) [LinearOrderedField α] (GetRandomValue : Int → Int → Int) :
    State α :=
  { fruits := []
    gameOver := false
    hasActiveFruit := false
    score := 0
    nextFruitLevel := GetNextFruitLevel GetRandomValue }

end Code

section Specification

/-- The clamp of the specification, as `std::clamp`: `lo` below `lo`, `hi` above `hi`. -/
def clamp {α : Type} [LinearOrderedField α] (x lo hi : α) : α :=
  if x < lo then lo else if hi < x then hi else x

/-- A fruit with its position forgotten: what the push-apart branch leaves alone. -/
def forgetPos {α : Type} [LinearOrderedField α] (f : Fruit α) : Fruit α :=
  { f with pos := ⟨0, 0⟩ }

/-- The states agree on every global and on every field of every fruit except `pos`. -/
def SameUpToPos {α : Type} [LinearOrderedField α] (s t : State α) : Prop :=
  t.fruits.map forgetPos = s.fruits.map forgetPos ∧ t.gameOver = s.gameOver ∧
    t.hasActiveFruit = s.hasActiveFruit ∧ t.score = s.score ∧
    t.nextFruitLevel = s.nextFruitLevel

/-- State `t` is state `u` after the merge branch ran on the pair `(i, j)`. -/
def MergeAt {α : Type} [LinearOrderedField α] (sqrtf : α → α) (i j : Nat) (u t : State α) :
    Prop :=
  i < j ∧ ∃ a b r, u.fruits[i]? = some a ∧ u.fruits[j]? = some b ∧
    a.remove = false ∧ b.remove = false ∧
    (0 < centreDist sqrtf a b ∧ centreDist sqrtf a b < a.radius + b.radius) ∧
    canMerge a b ∧ readFruitRadius (a.level + 1) = some r ∧
    t = { u with
      fruits := (u.fruits.set i (upgrade a r)).set j (markRemoved b),
      score := wrapInt64 (u.score + (a.level + 1) * 10) }

/-- What a scan that started in state `s` can have produced: a state equal to `s` up to
positions when it ran to its end, and the merge of one pair `i < j` of such a state when
it returned early. -/
def ScanOutcome {α : Type} [LinearOrderedField α] (sqrtf : α → α) (s : State α) :
    Flow (State α) → Prop
  | .next t => SameUpToPos s t
  | .ret t => ∃ u i j, SameUpToPos s u ∧ MergeAt sqrtf i j u t
  | .fault => True

/-- The overlap test `dist > 0 && dist < minDist` for the ordered pair `a`, `b`. -/
def Overlapping {α : Type} [LinearOrderedField α] (sqrtf : α → α) (a b : Fruit α) : Prop :=
  0 < centreDist sqrtf a b ∧ centreDist sqrtf a b < a.radius + b.radius

/-- The tier radii as the specification lists them, 20, 26, 32, 38, 44, 52, 60, 68, 78,
88, 100 for the levels 0 to 10; 0 for any other level. -/
def tierRadius {α : Type} [LinearOrderedField α] (level : Int) : α :=
  if level = 0 then 20 else if level = 1 then 26 else if level = 2 then 32
  else if level = 3 then 38 else if level = 4 then 44 else if level = 5 then 52
  else if level = 6 then 60 else if level = 7 then 68 else if level = 8 then 78
  else if level = 9 then 88 else if level = 10 then 100 else 0

/-- The range of a `long long`. -/
def InInt64 (x : Int) : Prop :=
  -(2 ^ 63) ≤ x ∧ x < 2 ^ 63

/-- Every fruit has a level inside the tier table and the radius the table gives for it. -/
def TierInvariant {α : Type} [LinearOrderedField α] (s : State α) : Prop :=
  ∀ f ∈ s.fruits, 0 ≤ f.level ∧ f.level < NUM_FRUIT_LEVELS ∧
    readFruitRadius f.level = some f.radius

/-- The random source keeps to the bounds it is asked for. -/
def WithinBounds (GetRandomValue : Int → Int → Int) : Prop :=
  ∀ lo hi : Int, lo ≤ hi → lo ≤ GetRandomValue lo hi ∧ GetRandomValue lo hi ≤ hi

end Specification

section Inputs

/-- An executable square root on `ℚ`, exact on squares of rationals. -/
def ratSqrt (q : ℚ) : ℚ := (Nat.sqrt q.num.toNat : ℚ) / (Nat.sqrt q.den : ℚ)

/-- Two fresh level-0 fruits whose centres are 10 apart. -/
def twoLevel0 : State ℚ :=
  { fruits := [⟨⟨100, 100⟩, ⟨0, 0⟩, 0, 20, 0, false, false⟩,
               ⟨⟨110, 100⟩, ⟨0, 0⟩, 0, 20, 0, false, false⟩]
    gameOver := false
    hasActiveFruit := false
    score := 0
    nextFruitLevel := 0 }

/-- Three fruits, the first two of level 3 and overlapping, and a bystander. -/
def threeFruits : State ℚ :=
  { fruits := [⟨⟨100, 100⟩, ⟨1, 2⟩, 3, 38, 0, true, false⟩,
               ⟨⟨103, 104⟩, ⟨0, 0⟩, 3, 38, -1, true, false⟩,
               ⟨⟨300, 300⟩, ⟨0, 0⟩, 7, 68, 1, false, true⟩]
    gameOver := false
    hasActiveFruit := true
    score := 50
    nextFruitLevel := 2 }

/-- Three level-0 fruits on a line, every two of them overlapping, all off cooldown. -/
def tripleLevel0 : State ℚ :=
  { fruits := [⟨⟨100, 100⟩, ⟨0, 0⟩, 0, 20, 0, false, false⟩,
               ⟨⟨103, 104⟩, ⟨0, 0⟩, 0, 20, 0, false, false⟩,
               ⟨⟨106, 108⟩, ⟨0, 0⟩, 0, 20, 0, false, false⟩]
    gameOver := false
    hasActiveFruit := true
    score := 0
    nextFruitLevel := 0 }

/-- Two overlapping level-2 fruits, centres 5 apart, the second one still on cooldown. -/
def coolingPair : State ℚ :=
  { fruits := [⟨⟨100, 100⟩, ⟨0, 0⟩, 2, 32, 0, true, false⟩,
               ⟨⟨103, 104⟩, ⟨0, 3⟩, 2, 32, 1 / 10, false, false⟩]
    gameOver := false
    hasActiveFruit := true
    score := 30
    nextFruitLevel := 1 }

/-- Two overlapping top-level fruits, centres 5 apart, both off cooldown. -/
def topPair : State ℚ :=
  { fruits := [⟨⟨200, 300⟩, ⟨0, 0⟩, 10, 100, 0, true, false⟩,
               ⟨⟨203, 304⟩, ⟨0, 0⟩, 10, 100, -1, true, false⟩]
    gameOver := false
    hasActiveFruit := false
    score := 700
    nextFruitLevel := 4 }

/-- Two overlapping fruits of different levels, centres 5 apart. -/
def mixedPair : State ℚ :=
  { fruits := [⟨⟨100, 100⟩, ⟨1, 0⟩, 0, 20, 0, false, false⟩,
               ⟨⟨103, 104⟩, ⟨0, 2⟩, 1, 26, 0, false, false⟩]
    gameOver := false
    hasActiveFruit := true
    score := 0
    nextFruitLevel := 0 }

/-- A settled level-0 fruit on the floor and a second level-0 fruit landing next to it
with downward speed 50, both off cooldown, 30 apart. -/
def landingPair : State ℚ :=
  { fruits := [⟨⟨100, 716⟩, ⟨0, 0⟩, 0, 20, -1 / 100, true, false⟩,
               ⟨⟨130, 1431 / 2⟩, ⟨0, 50⟩, 0, 20, -1 / 100, false, false⟩]
    gameOver := false
    hasActiveFruit := true
    score := 0
    nextFruitLevel := 0 }

/-- A frame of 1/50 s without click or key press. -/
def idleFrame : FrameInput ℚ :=
  { dt := 1 / 50
    mousePressed := false
    mouseX := 0
    keyR := false
    rndSpawn := fun lo _ => lo
    rndRestart := fun lo _ => lo }

/-- A state with one settled fruit and pending level 4. -/
def beforeSpawn : State ℚ :=
  { fruits := [⟨⟨100, 716⟩, ⟨0, 0⟩, 0, 20, 0, true, false⟩]
    gameOver := false
    hasActiveFruit := false
    score := 0
    nextFruitLevel := 4 }

/-- The state `ResolveCollisions` returns on `twoLevel0`: the second fruit is marked. -/
def afterMerge : State ℚ :=
  { fruits := [⟨⟨100, 100⟩, ⟨0, 0⟩, 1, 26, 2 / 5, false, false⟩,
               ⟨⟨110, 100⟩, ⟨0, 0⟩, 0, 20, 0, false, true⟩]
    gameOver := false
    hasActiveFruit := false
    score := 10
    nextFruitLevel := 0 }

/-- A finished game: a settled fruit reaches above the game-over line. -/
def frozenState : State ℚ :=
  { fruits := [⟨⟨100, 716⟩, ⟨0, 0⟩, 0, 20, 0, true, false⟩,
               ⟨⟨300, 100⟩, ⟨0, 0⟩, 1, 26, 0, true, false⟩,
               ⟨⟨200, 400⟩, ⟨0, 30⟩, 1, 26, 1 / 5, false, false⟩]
    gameOver := true
    hasActiveFruit := false
    score := 120
    nextFruitLevel := 3 }

/-- A frame of 1/50 s with a click at x = 250 and no key press. -/
def clickFrame : FrameInput ℚ :=
  { dt := 1 / 50
    mousePressed := true
    mouseX := 250
    keyR := false
    rndSpawn := fun _ hi => hi
    rndRestart := fun _ hi => hi }

/-- A frame of 1/50 s in which R is pressed; the random source answers its upper bound. -/
def restartFrame : FrameInput ℚ :=
  { dt := 1 / 50
    mousePressed := false
    mouseX := 0
    keyR := true
    rndSpawn := fun _ hi => hi
    rndRestart := fun _ hi => hi }

/-- A settled level-0 fruit at rest on the floor, away from the side walls. -/
def restingFruit : Fruit ℚ := ⟨⟨100, 716⟩, ⟨0, 0⟩, 0, 20, 0, true, false⟩

/-- A level-0 fruit flying fast towards the left wall and the floor. -/
def flyingFruit : Fruit ℚ := ⟨⟨50, 700⟩, ⟨-5000, 3000⟩, 0, 20, 0, false, false⟩

/-- Two unmarked level-0 fruits with the same centre, both off cooldown. -/
def coincidentPair : State ℚ :=
  { fruits := [⟨⟨100, 100⟩, ⟨0, 0⟩, 0, 20, 0, false, false⟩,
               ⟨⟨100, 100⟩, ⟨0, 1⟩, 0, 20, 0, false, false⟩]
    gameOver := false
    hasActiveFruit := true
    score := 0
    nextFruitLevel := 0 }

/-- A state holding only the fast fruit `flyingFruit`. -/
def flyingState : State ℚ :=
  { fruits := [flyingFruit]
    gameOver := false
    hasActiveFruit := true
    score := 0
    nextFruitLevel := 0 }

/-- A settled fruit that is marked for removal and reaches above the game-over line. -/
def markedSettled : State ℚ :=
  { fruits := [⟨⟨110, 100⟩, ⟨0, 0⟩, 0, 20, 0, true, true⟩]
    gameOver := false
    hasActiveFruit := false
    score := 10
    nextFruitLevel := 0 }

/-- An unsettled fruit that is marked for removal, alone in the collection. -/
def markedFalling : State ℚ :=
  { fruits := [⟨⟨110, 100⟩, ⟨0, 0⟩, 0, 20, 0, false, true⟩]
    gameOver := false
    hasActiveFruit := false
    score := 10
    nextFruitLevel := 0 }

/-- The state `twoLevel0` with `score` eight below the largest `long long`. -/
def nearOverflow : State ℚ :=
  { fruits := [⟨⟨100, 100⟩, ⟨0, 0⟩, 0, 20, 0, false, false⟩,
               ⟨⟨110, 100⟩, ⟨0, 0⟩, 0, 20, 0, false, false⟩]
    gameOver := false
    hasActiveFruit := false
    score := 2 ^ 63 - 8
    nextFruitLevel := 0 }

end Inputs

section Lemmas

variable {α : Type} [LinearOrderedField α]

theorem readFruitRadius_isSome (α : Type) [LinearOrderedField α] (L : Int)
    (h0 : 0 ≤ L) (h1 : L ≤ 10) :
    ∃ r : α, readFruitRadius L = some r ∧ r ∈ (FRUIT_RADIUS : List α) := by
  obtain ⟨n, rfl⟩ := Int.eq_ofNat_of_zero_le h0
  have hn : n ≤ 10 := by exact_mod_cast h1
  interval_cases n <;> simp [readFruitRadius, FRUIT_RADIUS]

theorem wrapInt64_of_inRange (x : Int) (h : InInt64 x) : wrapInt64 x = x := by
  obtain ⟨h1, h2⟩ := h
  unfold wrapInt64
  rw [Int.emod_eq_of_lt (by omega) (by omega)]
  omega

theorem pairBody_merge (sqrtf : α → α) (i j : Nat) (s : State α) (a b : Fruit α) (r : α)
    (hi : s.fruits[i]? = some a) (hj : s.fruits[j]? = some b)
    (ha : a.remove = false) (hb : b.remove = false)
    (hpos : 0 < centreDist sqrtf a b) (hlt : centreDist sqrtf a b < a.radius + b.radius)
    (hm : canMerge a b) (hr : readFruitRadius (a.level + 1) = some r) :
    pairBody sqrtf i j s = .ret { s with
      fruits := (s.fruits.set i (upgrade a r)).set j (markRemoved b),
      score := wrapInt64 (s.score + (a.level + 1) * 10) } := by
  simp [pairBody, hi, hj, ha, hb, hpos, hlt, hm, hr, upgrade]

theorem pairBody_push (sqrtf : α → α) (i j : Nat) (s : State α) (a b : Fruit α)
    (hi : s.fruits[i]? = some a) (hj : s.fruits[j]? = some b)
    (ha : a.remove = false) (hb : b.remove = false)
    (hpos : 0 < centreDist sqrtf a b) (hlt : centreDist sqrtf a b < a.radius + b.radius)
    (hm : ¬ canMerge a b) :
    pairBody sqrtf i j s = .next { s with
      fruits := (s.fruits.set i (pushApart sqrtf a b).1).set j (pushApart sqrtf a b).2 } := by
  simp [pairBody, hi, hj, ha, hb, hpos, hlt, hm]

theorem set_eq_self_of_getElem? {β : Type} (l : List β) (i : Nat) (a : β)
    (h : l[i]? = some a) : l.set i a = l := by
  apply List.ext_getElem?
  intro n
  rw [List.getElem?_set]
  split
  · next hin =>
    subst hin
    have hlt : i < l.length := by
      by_contra hc
      rw [List.getElem?_eq_none (by omega)] at h
      exact absurd h (by simp)
    simp [hlt, h]
  · rfl

theorem sameUpToPos_refl (s : State α) : SameUpToPos s s := ⟨rfl, rfl, rfl, rfl, rfl⟩

theorem sameUpToPos_trans {s t u : State α} (h1 : SameUpToPos s t) (h2 : SameUpToPos t u) :
    SameUpToPos s u := by
  obtain ⟨a1, a2, a3, a4, a5⟩ := h1
  obtain ⟨b1, b2, b3, b4, b5⟩ := h2
  exact ⟨b1.trans a1, b2.trans a2, b3.trans a3, b4.trans a4, b5.trans a5⟩

theorem sameUpToPos_length {s t : State α} (h : SameUpToPos s t) :
    t.fruits.length = s.fruits.length := by
  have := congrArg List.length h.1
  simpa using this

theorem forgetPos_pushApart_fst (sqrtf : α → α) (a b : Fruit α) :
    forgetPos (pushApart sqrtf a b).1 = forgetPos a := by
  simp [forgetPos, pushApart]

theorem forgetPos_pushApart_snd (sqrtf : α → α) (a b : Fruit α) :
    forgetPos (pushApart sqrtf a b).2 = forgetPos b := by
  simp [forgetPos, pushApart]

theorem pairBody_cases (sqrtf : α → α) (i j : Nat) (s : State α) :
    (pairBody sqrtf i j s = .fault ∧ (s.fruits[i]? = none ∨ s.fruits[j]? = none)) ∨
    ∃ a b, s.fruits[i]? = some a ∧ s.fruits[j]? = some b ∧
      ((pairBody sqrtf i j s = .next s ∧
          ((a.remove = true ∨ b.remove = true) ∨
            ¬ (0 < centreDist sqrtf a b ∧ centreDist sqrtf a b < a.radius + b.radius))) ∨
       (a.remove = false ∧ b.remove = false ∧
          (0 < centreDist sqrtf a b ∧ centreDist sqrtf a b < a.radius + b.radius) ∧
          ((¬ canMerge a b ∧ pairBody sqrtf i j s = .next { s with
              fruits := (s.fruits.set i (pushApart sqrtf a b).1).set j (pushApart sqrtf a b).2 }) ∨
           (canMerge a b ∧ (readFruitRadius (a.level + 1) : Option α) = none ∧
              pairBody sqrtf i j s = .fault) ∨
           (canMerge a b ∧ ∃ r, readFruitRadius (a.level + 1) = some r ∧
              pairBody sqrtf i j s = .ret { s with
                fruits := (s.fruits.set i (upgrade a r)).set j (markRemoved b),
                score := wrapInt64 (s.score + (a.level + 1) * 10) })))) := by
  cases hi : s.fruits[i]? with
  | none => left; simp [pairBody, hi]
  | some a =>
    cases hj : s.fruits[j]? with
    | none => left; simp [pairBody, hi, hj]
    | some b =>
      right
      refine ⟨a, b, rfl, rfl, ?_⟩
      by_cases hra : a.remove = true
      · left; simp [pairBody, hi, hj, hra]
      by_cases hrb : b.remove = true
      · left; simp [pairBody, hi, hj, hrb]
      simp only [Bool.not_eq_true] at hra hrb
      by_cases hov : 0 < centreDist sqrtf a b ∧ centreDist sqrtf a b < a.radius + b.radius
      · right
        refine ⟨hra, hrb, hov, ?_⟩
        by_cases hm : canMerge a b
        · right
          cases hr : (readFruitRadius (a.level + 1) : Option α) with
          | none => left; simp [pairBody, hi, hj, hra, hrb, hov, hm, hr]
          | some r =>
            right
            exact ⟨hm, r, rfl, pairBody_merge sqrtf i j s a b r hi hj hra hrb hov.1 hov.2 hm hr⟩
        · left
          exact ⟨hm, pairBody_push sqrtf i j s a b hi hj hra hrb hov.1 hov.2 hm⟩
      · left
        refine ⟨?_, Or.inr hov⟩
        simp only [pairBody, hi, hj, hra, hrb]
        simp [hov]

theorem pairBody_next_inv (sqrtf : α → α) (i j : Nat) (s t : State α)
    (h : pairBody sqrtf i j s = .next t) : SameUpToPos s t := by
  rcases pairBody_cases sqrtf i j s with ⟨hf, -⟩ | ⟨a, b, hi, hj, hc⟩
  · rw [hf] at h; cases h
  · rcases hc with ⟨hn, -⟩ | ⟨-, -, -, ⟨-, hn⟩ | ⟨-, -, hn⟩ | ⟨-, r, -, hn⟩⟩
    · rw [hn] at h; cases h; exact sameUpToPos_refl _
    · rw [hn] at h; cases h
      refine ⟨?_, rfl, rfl, rfl, rfl⟩
      simp only [List.map_set, forgetPos_pushApart_fst, forgetPos_pushApart_snd]
      rw [set_eq_self_of_getElem? _ i _ (by simp [hi]),
        set_eq_self_of_getElem? _ j _ (by simp [hj])]
    · rw [hn] at h; cases h
    · rw [hn] at h; cases h

theorem pairBody_ret_inv (sqrtf : α → α) (i j : Nat) (s t : State α) (hij : i < j)
    (h : pairBody sqrtf i j s = .ret t) : MergeAt sqrtf i j s t := by
  rcases pairBody_cases sqrtf i j s with ⟨hf, -⟩ | ⟨a, b, hi, hj, hc⟩
  · rw [hf] at h; cases h
  · rcases hc with ⟨hn, -⟩ | ⟨hra, hrb, hov, ⟨-, hn⟩ | ⟨-, -, hn⟩ | ⟨hm, r, hr, hn⟩⟩
    · rw [hn] at h; cases h
    · rw [hn] at h; cases h
    · rw [hn] at h; cases h
    · rw [hn] at h; cases h
      exact ⟨hij, a, b, r, hi, hj, hra, hrb, hov, hm, hr, rfl⟩

theorem sameUpToPos_map_eq {β : Type} {s t : State α} (h : SameUpToPos s t)
    (g : Fruit α → β) (hg : ∀ f, g (forgetPos f) = g f) :
    t.fruits.map g = s.fruits.map g := by
  have e : ∀ l : List (Fruit α), l.map g = (l.map forgetPos).map g := by
    intro l
    rw [List.map_map]
    exact List.map_congr_left (fun f _ => (hg f).symm)
  rw [e t.fruits, e s.fruits, h.1]

theorem sameUpToPos_purge {s t : State α} (h : SameUpToPos s t) :
    SameUpToPos (purge s) (purge t) := by
  refine ⟨?_, h.2.1, h.2.2.1, h.2.2.2.1, h.2.2.2.2⟩
  have e : ∀ l : List (Fruit α), (l.filter (fun f => !f.remove)).map forgetPos
      = (l.map forgetPos).filter (fun f => !f.remove) := by
    intro l
    rw [List.filter_map]
    rfl
  simp only [purge]
  rw [e t.fruits, e s.fruits, h.1]

theorem sameUpToPos_levels {s t : State α} (h : SameUpToPos s t)
    (hs : ∀ f ∈ s.fruits, 0 ≤ f.level) : ∀ f ∈ t.fruits, 0 ≤ f.level := by
  have e := sameUpToPos_map_eq h (fun f => f.level) (fun _ => rfl)
  intro f hf
  have : f.level ∈ t.fruits.map (fun f => f.level) := List.mem_map_of_mem _ hf
  rw [e] at this
  obtain ⟨g, hg, hgl⟩ := List.mem_map.mp this
  rw [← hgl]; exact hs g hg

theorem scanOutcome_of_same {sqrtf : α → α} {s s1 : State α} {r : Flow (State α)}
    (h : SameUpToPos s s1) (hr : ScanOutcome sqrtf s1 r) : ScanOutcome sqrtf s r := by
  cases r with
  | next t => exact sameUpToPos_trans h hr
  | ret t =>
    obtain ⟨u, i, j, hu, hm⟩ := hr
    exact ⟨u, i, j, sameUpToPos_trans h hu, hm⟩
  | fault => trivial

theorem innerLoop_outcome (sqrtf : α → α) (i : Nat) :
    ∀ (k j : Nat) (s : State α), i < j → ScanOutcome sqrtf s (innerLoop sqrtf i k j s) := by
  intro k
  induction k with
  | zero => intro j s _; exact sameUpToPos_refl s
  | succ k ih =>
    intro j s hij
    simp only [innerLoop]
    cases hp : pairBody sqrtf i j s with
    | next t =>
      exact scanOutcome_of_same (pairBody_next_inv sqrtf i j s t hp) (ih (j + 1) t (by omega))
    | ret t =>
      exact ⟨s, i, j, sameUpToPos_refl s, pairBody_ret_inv sqrtf i j s t hij hp⟩
    | fault => trivial

theorem outerLoop_outcome (sqrtf : α → α) :
    ∀ (k i : Nat) (s : State α), ScanOutcome sqrtf s (outerLoop sqrtf k i s) := by
  intro k
  induction k with
  | zero => intro i s; exact sameUpToPos_refl s
  | succ k ih =>
    intro i s
    simp only [outerLoop]
    have hin := innerLoop_outcome sqrtf i (s.fruits.length - (i + 1)) (i + 1) s (by omega)
    cases hp : innerLoop sqrtf i (s.fruits.length - (i + 1)) (i + 1) s with
    | next t =>
      rw [hp] at hin
      exact scanOutcome_of_same hin (ih (i + 1) t)
    | ret t => rw [hp] at hin; exact hin
    | fault => trivial

theorem pairBody_ne_fault (sqrtf : α → α) (i j : Nat) (s : State α)
    (hi : i < s.fruits.length) (hj : j < s.fruits.length)
    (hs : ∀ f ∈ s.fruits, 0 ≤ f.level) : pairBody sqrtf i j s ≠ .fault := by
  rcases pairBody_cases sqrtf i j s with ⟨-, hn | hn⟩ | ⟨a, b, hia, hjb, hc⟩
  · rw [List.getElem?_eq_none_iff] at hn; omega
  · rw [List.getElem?_eq_none_iff] at hn; omega
  · rcases hc with ⟨hn, -⟩ | ⟨-, -, -, ⟨-, hn⟩ | ⟨hm, hr, -⟩ | ⟨-, r, -, hn⟩⟩
    · rw [hn]; simp
    · rw [hn]; simp
    · exfalso
      have ha : a ∈ s.fruits := List.getElem?_mem hia
      have h0 := hs a ha
      have h10 : a.level < 10 := by
        have := hm.2.2.2
        simp [NUM_FRUIT_LEVELS] at this
        omega
      obtain ⟨r, hr', -⟩ := readFruitRadius_isSome α (a.level + 1) (by omega) (by omega)
      rw [hr] at hr'; cases hr'
    · rw [hn]; simp

theorem innerLoop_ne_fault (sqrtf : α → α) (i : Nat) :
    ∀ (k j : Nat) (s : State α), i < j → j + k ≤ s.fruits.length →
      (∀ f ∈ s.fruits, 0 ≤ f.level) → innerLoop sqrtf i k j s ≠ .fault := by
  intro k
  induction k with
  | zero => intro j s _ _ _; simp [innerLoop]
  | succ k ih =>
    intro j s hij hlen hs
    simp only [innerLoop]
    cases hp : pairBody sqrtf i j s with
    | next t =>
      have hsame := pairBody_next_inv sqrtf i j s t hp
      exact ih (j + 1) t (by omega) (by rw [sameUpToPos_length hsame]; omega) (sameUpToPos_levels hsame hs)
    | ret t => simp
    | fault => exact absurd hp (pairBody_ne_fault sqrtf i j s (by omega) (by omega) hs)

theorem outerLoop_ne_fault (sqrtf : α → α) :
    ∀ (k i : Nat) (s : State α), (∀ f ∈ s.fruits, 0 ≤ f.level) →
      outerLoop sqrtf k i s ≠ .fault := by
  intro k
  induction k with
  | zero => intro i s _; simp [outerLoop]
  | succ k ih =>
    intro i s hs
    simp only [outerLoop]
    have hin := innerLoop_outcome sqrtf i (s.fruits.length - (i + 1)) (i + 1) s (by omega)
    cases hp : innerLoop sqrtf i (s.fruits.length - (i + 1)) (i + 1) s with
    | next t =>
      rw [hp] at hin
      exact ih (i + 1) t (sameUpToPos_levels hin hs)
    | ret t => simp
    | fault =>
      exfalso
      by_cases hk : s.fruits.length - (i + 1) = 0
      · rw [hk] at hp; simp [innerLoop] at hp
      · exact innerLoop_ne_fault sqrtf i _ (i + 1) s (by omega) (by omega) hs hp

theorem resolve_first_pair_aux (sqrtf : α → α) (s : State α) (a b : Fruit α)
    (rest : List (Fruit α)) (L : Int)
    (hs : s.fruits = a :: b :: rest)
    (ha : a.remove = false) (hb : b.remove = false)
    (hla : a.level = L) (hlb : b.level = L) (hL0 : 0 ≤ L) (hL : L < 10)
    (hca : a.mergeCooldown ≤ 0) (hcb : b.mergeCooldown ≤ 0)
    (hov : Overlapping sqrtf a b) :
    ∃ r : α, readFruitRadius (L + 1) = some r ∧
      ResolveCollisions sqrtf s = some { s with
        fruits := upgrade a r :: markRemoved b :: rest,
        score := wrapInt64 (s.score + (L + 1) * 10) } := by
  obtain ⟨r, hr, -⟩ := readFruitRadius_isSome α (L + 1) (by omega) (by omega)
  refine ⟨r, hr, ?_⟩
  have hm : canMerge a b := ⟨by rw [hla, hlb], hca, hcb, by rw [hla]; simp [NUM_FRUIT_LEVELS]; omega⟩
  have hp := pairBody_merge sqrtf 0 1 s a b r (by simp [hs]) (by simp [hs]) ha hb hov.1 hov.2 hm
    (by rw [hla]; exact hr)
  simp [ResolveCollisions, hs, outerLoop, innerLoop] at hp ⊢
  rw [hp]
  simp [hla]

theorem resolve_two_push_aux (sqrtf : α → α) (s : State α) (a b : Fruit α)
    (hs : s.fruits = [a, b])
    (ha : a.remove = false) (hb : b.remove = false)
    (hov : Overlapping sqrtf a b) (hm : ¬ canMerge a b) :
    ResolveCollisions sqrtf s =
      some { s with fruits := [(pushApart sqrtf a b).1, (pushApart sqrtf a b).2] } := by
  have hp := pairBody_push sqrtf 0 1 s a b (by simp [hs]) (by simp [hs]) ha hb hov.1 hov.2 hm
  simp [ResolveCollisions, hs, outerLoop, innerLoop] at hp ⊢
  rw [hp]
  simp [innerLoop, purge, pushApart, ha, hb]

theorem mergeAt_summary {sqrtf : α → α} {i j : Nat} {u t : State α}
    (h : MergeAt sqrtf i j u t) :
    ∃ L, i < j ∧ (u.fruits.map (fun f => f.level))[i]? = some L ∧ L < 10 ∧
      (u.fruits.map (fun f => f.remove))[j]? = some false ∧
      t.fruits.map (fun f => f.level) = (u.fruits.map (fun f => f.level)).set i (L + 1) ∧
      t.fruits.map (fun f => f.remove) = (u.fruits.map (fun f => f.remove)).set j true ∧
      t.score = wrapInt64 (u.score + (L + 1) * 10) := by
  obtain ⟨hij, a, b, r, hi, hj, ha, hb, -, hm, -, rfl⟩ := h
  have h10 : a.level < 10 := by
    have := hm.2.2.2
    simp [NUM_FRUIT_LEVELS] at this
    omega
  refine ⟨a.level, hij, by simp [hi], h10, by simp [hj, hb], ?_, ?_, rfl⟩
  · simp only [List.map_set, upgrade, markRemoved]
    apply set_eq_self_of_getElem?
    rw [List.getElem?_set_ne (by omega)]
    simp [hj]
  · simp only [List.map_set, upgrade, markRemoved]
    rw [set_eq_self_of_getElem? (u.fruits.map (fun f => f.remove)) i a.remove (by simp [hi])]

theorem pushApart_offset (sqrtf : α → α) (a b : Fruit α) (hpos : 0 < centreDist sqrtf a b) :
    (pushApart sqrtf a b).2.pos.x - (pushApart sqrtf a b).1.pos.x
        = (b.pos.x - a.pos.x) * ((a.radius + b.radius) / centreDist sqrtf a b) ∧
    (pushApart sqrtf a b).2.pos.y - (pushApart sqrtf a b).1.pos.y
        = (b.pos.y - a.pos.y) * ((a.radius + b.radius) / centreDist sqrtf a b) := by
  have hne : centreDist sqrtf a b ≠ 0 := ne_of_gt hpos
  constructor <;>
  · simp only [pushApart]
    field_simp
    ring

theorem readFruitRadius_ten (r : α) (h : readFruitRadius 10 = some r) : r = 100 := by
  simp [readFruitRadius, FRUIT_RADIUS] at h
  exact h.symm

theorem physicsLoop_fruits (dt : α) (l : List (Fruit α)) (active over : Bool) :
    (physicsLoop dt l active over).1 = l.map (updateFruit dt) := by
  induction l generalizing active over with
  | nil => rfl
  | cons f rest ih => simp [physicsLoop, ih]

theorem physicsLoop_over (dt : α) (l : List (Fruit α)) (active over : Bool) :
    (physicsLoop dt l active over).2.2 = true ↔
      over = true ∨ ∃ f ∈ l.map (updateFruit dt),
        f.settled = true ∧ f.pos.y - f.radius < GAME_OVER_LINE := by
  induction l generalizing active over with
  | nil => simp [physicsLoop]
  | cons f rest ih =>
    simp only [physicsLoop, ih, List.map_cons, List.mem_cons, exists_eq_or_imp]
    by_cases h : (updateFruit dt f).settled = true ∧
        (updateFruit dt f).pos.y - (updateFruit dt f).radius < GAME_OVER_LINE
    · simp [h.1, h.2]
    · have h2 : ((updateFruit dt f).settled &&
          decide ((updateFruit dt f).pos.y - (updateFruit dt f).radius < GAME_OVER_LINE))
          = false := by
        rw [Bool.and_eq_false_iff]
        by_cases hs : (updateFruit dt f).settled = true
        · right; simpa using fun hlt => h ⟨hs, hlt⟩
        · left; simpa using hs
      simp [h2, h]

theorem physicsLoop_active (dt : α) (l : List (Fruit α)) (active over : Bool) :
    (physicsLoop dt l active over).2.1 = true ↔
      active = true ∨ ∃ f ∈ l.map (updateFruit dt), f.settled = false := by
  induction l generalizing active over with
  | nil => simp [physicsLoop]
  | cons f rest ih =>
    simp only [physicsLoop, ih, List.map_cons, List.mem_cons, exists_eq_or_imp]
    cases hs : (updateFruit dt f).settled <;> simp

theorem ratSqrt_mul_self (q : ℚ) (h : 0 ≤ q) : ratSqrt (q * q) = q := by
  unfold ratSqrt
  rw [Rat.mul_self_num, Rat.mul_self_den, Nat.sqrt_eq]
  obtain ⟨n, hn⟩ := Int.eq_ofNat_of_zero_le (Rat.num_nonneg.mpr h)
  have e : (q.num * q.num).toNat = n * n := by
    rw [hn, ← Int.natCast_mul]; exact Int.toNat_natCast _
  rw [e, Nat.sqrt_eq]
  have h2 : (q.num : ℚ) / (q.den : ℚ) = q := Rat.num_div_den q
  rw [hn] at h2
  simpa using h2

theorem ratSqrt_25 : ratSqrt 25 = 5 := by
  have h := ratSqrt_mul_self 5 (by norm_num)
  norm_num at h
  exact h

theorem ratSqrt_100 : ratSqrt 100 = 10 := by
  have h := ratSqrt_mul_self 10 (by norm_num)
  norm_num at h
  exact h

theorem ratSqrt_900 : ratSqrt 900 = 30 := by
  have h := ratSqrt_mul_self 30 (by norm_num)
  norm_num at h
  exact h

theorem twoLevel0_eval : ResolveCollisions ratSqrt twoLevel0 = some
    { fruits := [⟨⟨100, 100⟩, ⟨0, 0⟩, 1, 26, 2 / 5, false, false⟩,
                 ⟨⟨110, 100⟩, ⟨0, 0⟩, 0, 20, 0, false, true⟩]
      gameOver := false
      hasActiveFruit := false
      score := 10
      nextFruitLevel := 0 } := by
  norm_num [ResolveCollisions, outerLoop, innerLoop, pairBody, twoLevel0, centreDist, canMerge,
    upgrade, markRemoved, ratSqrt_100, NUM_FRUIT_LEVELS, readFruitRadius, FRUIT_RADIUS,
    MERGE_COOLDOWN, wrapInt64]

theorem landingPair_physics : UpdatePhysics (1 / 50) landingPair =
    { fruits := [⟨⟨100, 716⟩, ⟨0, 0⟩, 0, 20, -1 / 100, true, false⟩,
                 ⟨⟨130, 716⟩, ⟨0, 0⟩, 0, 20, -1 / 100, true, false⟩]
      gameOver := false
      hasActiveFruit := false
      score := 0
      nextFruitLevel := 0 } := by
  norm_num [UpdatePhysics, physicsLoop, updateFruit, landingPair, GRAVITY, SCREEN_HEIGHT,
    SCREEN_WIDTH, WALL_THICKNESS, FLOOR_DAMPING, WALL_DAMPING, SETTLE_VEL, GAME_OVER_LINE,
    abs_lt]

theorem landingPair_frame :
    simulate ratSqrt idleFrame landingPair = some
      { fruits := [⟨⟨100, 716⟩, ⟨0, 0⟩, 1, 26, 2 / 5, false, false⟩,
                   ⟨⟨130, 716⟩, ⟨0, 0⟩, 0, 20, -1 / 100, true, true⟩]
        gameOver := false
        hasActiveFruit := false
        score := 10
        nextFruitLevel := 0 } := by
  have h : simulate ratSqrt idleFrame landingPair
      = ResolveCollisions ratSqrt (UpdatePhysics (1 / 50) landingPair) := by
    simp [simulate, idleFrame, landingPair]
  rw [h, landingPair_physics]
  norm_num [ResolveCollisions, outerLoop, innerLoop, pairBody, centreDist, canMerge,
    upgrade, markRemoved, ratSqrt_900, NUM_FRUIT_LEVELS, readFruitRadius, FRUIT_RADIUS,
    MERGE_COOLDOWN, wrapInt64]

theorem updateFruit_level (dt : α) (f : Fruit α) : (updateFruit dt f).level = f.level := by
  simp only [updateFruit]
  split_ifs <;> rfl

theorem updateFruit_radius (dt : α) (f : Fruit α) : (updateFruit dt f).radius = f.radius := by
  simp only [updateFruit]
  split_ifs <;> rfl

theorem updateFruit_remove (dt : α) (f : Fruit α) : (updateFruit dt f).remove = f.remove := by
  simp only [updateFruit]
  split_ifs <;> rfl

theorem updateFruit_settled (dt : α) (f : Fruit α) (h : f.settled = true) :
    (updateFruit dt f).settled = true := by
  simp only [updateFruit]
  split_ifs <;> first | rfl | exact h

theorem updateFruit_set_remove (dt : α) (f : Fruit α) (b : Bool) :
    updateFruit dt { f with remove := b } = { updateFruit dt f with remove := b } := by
  obtain ⟨p, v, l, r, m, st, rm⟩ := f
  by_cases c1 : 0 < m
  · simp only [updateFruit, c1, if_true]
    split_ifs <;> rfl
  · simp only [updateFruit, c1, if_false]
    split_ifs <;> rfl

theorem UpdatePhysics_fruits (dt : α) (s : State α) :
    (UpdatePhysics dt s).fruits = s.fruits.map (updateFruit dt) := by
  simp [UpdatePhysics, physicsLoop_fruits]

theorem resolve_outcome_aux (sqrtf : α → α) (s t : State α)
    (h : ResolveCollisions sqrtf s = some t) :
    (∃ u, SameUpToPos s u ∧ t = purge u) ∨
      ∃ u i j, SameUpToPos s u ∧ MergeAt sqrtf i j u t := by
  have hout := outerLoop_outcome sqrtf s.fruits.length 0 s
  unfold ResolveCollisions at h
  cases hl : outerLoop sqrtf s.fruits.length 0 s with
  | fault => rw [hl] at h; cases h
  | next u =>
    rw [hl] at h hout
    cases h
    exact Or.inl ⟨u, hout, rfl⟩
  | ret u =>
    rw [hl] at h hout
    cases h
    exact Or.inr hout

theorem resolve_isSome_aux (sqrtf : α → α) (s : State α)
    (hwf : ∀ f ∈ s.fruits, 0 ≤ f.level) : ∃ t, ResolveCollisions sqrtf s = some t := by
  have hnf := outerLoop_ne_fault sqrtf s.fruits.length 0 s hwf
  unfold ResolveCollisions
  cases hl : outerLoop sqrtf s.fruits.length 0 s with
  | fault => exact absurd hl hnf
  | next u => exact ⟨_, rfl⟩
  | ret u => exact ⟨_, rfl⟩

theorem mergeAt_settled {sqrtf : α → α} {i j : Nat} {u t : State α}
    (h : MergeAt sqrtf i j u t) :
    t.fruits.map (fun f => f.settled) = (u.fruits.map (fun f => f.settled)).set i false ∧
      t.fruits.length = u.fruits.length := by
  obtain ⟨hij, a, b, r, hi, hj, -, -, -, -, -, rfl⟩ := h
  refine ⟨?_, by simp⟩
  simp only [List.map_set, upgrade, markRemoved]
  apply set_eq_self_of_getElem?
  rw [List.getElem?_set_ne (by omega)]
  simp [hj]

theorem sameUpToPos_tier {s t : State α} (h : SameUpToPos s t) (hs : TierInvariant s) :
    TierInvariant t := by
  intro f hf
  have hm : forgetPos f ∈ t.fruits.map forgetPos := List.mem_map_of_mem _ hf
  rw [h.1] at hm
  obtain ⟨g, hg, hgf⟩ := List.mem_map.mp hm
  have hl : (forgetPos g).level = (forgetPos f).level := congrArg (fun x : Fruit α => x.level) hgf
  have hr : (forgetPos g).radius = (forgetPos f).radius :=
    congrArg (fun x : Fruit α => x.radius) hgf
  simp only [forgetPos] at hl hr
  rw [← hl, ← hr]
  exact hs g hg

theorem mergeAt_tier {sqrtf : α → α} {i j : Nat} {u t : State α}
    (h : MergeAt sqrtf i j u t) (hu : TierInvariant u) : TierInvariant t := by
  obtain ⟨-, a, b, r, hi, hj, -, -, -, hm, hr, rfl⟩ := h
  have ha := hu a (List.getElem?_mem hi)
  have hb := hu b (List.getElem?_mem hj)
  have h10 : a.level < 10 := by
    have := hm.2.2.2
    simp [NUM_FRUIT_LEVELS] at this
    omega
  intro f hf
  rcases List.mem_or_eq_of_mem_set hf with hf1 | rfl
  · rcases List.mem_or_eq_of_mem_set hf1 with hf2 | rfl
    · exact hu f hf2
    · refine ⟨?_, ?_, hr⟩
      · simp only [upgrade]; omega
      · simp only [upgrade, NUM_FRUIT_LEVELS]; omega
  · exact hb

theorem updateFruit_pos_y (dt : α) (f : Fruit α) :
    (updateFruit dt f).pos.y =
      if f.pos.y + (f.vel.y + 1400 * dt) * dt + f.radius ≥ 736 then 736 - f.radius
      else f.pos.y + (f.vel.y + 1400 * dt) * dt := by
  obtain ⟨p, v, l, r, m, st, rm⟩ := f
  have e : ((SCREEN_HEIGHT : Int) : α) - WALL_THICKNESS = 736 := by
    norm_num [SCREEN_HEIGHT, WALL_THICKNESS]
  by_cases c1 : 0 < m
  · simp only [updateFruit, c1, if_true, e, GRAVITY]
    split_ifs <;> rfl
  · simp only [updateFruit, c1, if_false, e, GRAVITY]
    split_ifs <;> rfl

theorem updateFruit_pos_x (dt : α) (f : Fruit α) :
    (updateFruit dt f).pos.x =
      if f.pos.x + f.vel.x * dt - f.radius ≤ 24 then
        (if 24 + f.radius + f.radius ≥ 516 then 516 - f.radius else 24 + f.radius)
      else if f.pos.x + f.vel.x * dt + f.radius ≥ 516 then 516 - f.radius
      else f.pos.x + f.vel.x * dt := by
  obtain ⟨p, v, l, r, m, st, rm⟩ := f
  have e : ((SCREEN_WIDTH : Int) : α) - 24 = 516 := by
    norm_num [SCREEN_WIDTH]
  have e2 : (WALL_THICKNESS : α) = 24 := rfl
  by_cases c1 : 0 < m
  · simp only [updateFruit, c1, if_true, e, e2]
    split_ifs <;> rfl
  · simp only [updateFruit, c1, if_false, e, e2]
    split_ifs <;> rfl

theorem updateFruit_vel_x (dt : α) (f : Fruit α) :
    (updateFruit dt f).vel.x =
      if f.pos.x + f.vel.x * dt - f.radius ≤ 24 then
        (if 24 + f.radius + f.radius ≥ 516 then f.vel.x * -(9 / 20) * -(9 / 20)
          else f.vel.x * -(9 / 20))
      else if f.pos.x + f.vel.x * dt + f.radius ≥ 516 then f.vel.x * -(9 / 20)
      else f.vel.x := by
  obtain ⟨p, v, l, r, m, st, rm⟩ := f
  have e : ((SCREEN_WIDTH : Int) : α) - 24 = 516 := by
    norm_num [SCREEN_WIDTH]
  have e2 : (WALL_THICKNESS : α) = 24 := rfl
  by_cases c1 : 0 < m
  · simp only [updateFruit, c1, if_true, e, e2, WALL_DAMPING]
    split_ifs <;> rfl
  · simp only [updateFruit, c1, if_false, e, e2, WALL_DAMPING]
    split_ifs <;> rfl

theorem UpdatePhysics_getElem? (dt : α) (s : State α) (i : Nat) (f : Fruit α)
    (hi : s.fruits[i]? = some f) :
    (UpdatePhysics dt s).fruits[i]? = some (updateFruit dt f) := by
  rw [UpdatePhysics_fruits, List.getElem?_map, hi]
  rfl

theorem twoLevel0_afterMerge : ResolveCollisions ratSqrt twoLevel0 = some afterMerge :=
  twoLevel0_eval

theorem UpdatePhysics_active (dt : α) (s : State α) :
    (UpdatePhysics dt s).hasActiveFruit = true ↔
      ∃ f ∈ (UpdatePhysics dt s).fruits, f.settled = false := by
  simp only [UpdatePhysics, physicsLoop_fruits]
  rw [physicsLoop_active]
  simp

theorem UpdatePhysics_over (dt : α) (s : State α) :
    (UpdatePhysics dt s).gameOver = true ↔
      s.gameOver = true ∨ ∃ f ∈ (UpdatePhysics dt s).fruits,
        f.settled = true ∧ f.pos.y - f.radius < 90 := by
  simp only [UpdatePhysics, physicsLoop_fruits]
  rw [physicsLoop_over]
  simp [GAME_OVER_LINE]

theorem purge_of_unmarked {β : Type} (s : State β) (h : ∀ f ∈ s.fruits, f.remove = false) :
    purge s = s := by
  obtain ⟨l, g, a, sc, n⟩ := s
  simp only [purge, State.mk.injEq, and_true]
  rw [List.filter_eq_self]
  intro f hf
  simp [h f hf]

theorem centreDist_same_pos (sqrtf : α → α) (a b : Fruit α) (hp : a.pos = b.pos)
    (h0 : sqrtf 0 = 0) : centreDist sqrtf a b = 0 := by
  simp [centreDist, hp, h0]

theorem nearOverflow_eval :
    (ResolveCollisions ratSqrt nearOverflow).map (fun t => t.score) = some (-(2 ^ 63) + 2) := by
  norm_num [ResolveCollisions, outerLoop, innerLoop, pairBody, nearOverflow, centreDist,
    canMerge, upgrade, markRemoved, ratSqrt_100, NUM_FRUIT_LEVELS, readFruitRadius,
    FRUIT_RADIUS, MERGE_COOLDOWN, wrapInt64]

end Lemmas

section Claims

variable {α : Type} [LinearOrderedField α]

/-- C1 (code as it is): on two overlapping level-0 fruits that are off cooldown the call
returns with TWO fruits in the collection, the promoted one and the absorbed one, which is
only marked: the merge branch returns before the erase statement. -/
theorem merge_leaves_two_bodies :
    (ResolveCollisions ratSqrt twoLevel0).map (fun s => s.fruits.length) = some 2 ∧
    (ResolveCollisions ratSqrt twoLevel0).map (fun s => s.fruits.map (fun f => f.level))
      = some [1, 0] ∧
    (ResolveCollisions ratSqrt twoLevel0).map (fun s => s.score) = some 10 := by
  rw [twoLevel0_eval]; simp

/-- C2 (code as it is): after a call that committed a merge a fruit with `remove = true`
is still in the collection. -/
theorem merge_leaves_marked_body :
    ∃ t, ResolveCollisions ratSqrt twoLevel0 = some t ∧ ∃ f ∈ t.fruits, f.remove = true := by
  rw [twoLevel0_eval]
  exact ⟨_, rfl, _, List.mem_cons_of_mem _ (List.mem_singleton.mpr rfl), rfl⟩

/-- C3: when the fruits at index 0 and 1 are unmarked, have the same level `L` with
`0 ≤ L < 10`, are both off cooldown and overlap, and `score` is a `long long` value with
room for the addition, `ResolveCollisions` returns the state in which fruit 0 has level
`L + 1`, the radius `FRUIT_RADIUS[L + 1]`, which is the tier radius of level `L + 1`
(26, 32, ..., 100), cooldown 0.4 and `settled = false` (position, velocity and `remove` as
before), fruit 1 has `remove = true` and is otherwise as before, every other fruit is
untouched, and `score` grew by exactly `(L + 1) * 10`. -/
theorem first_pair_merge (sqrtf : α → α) (s : State α) (a b : Fruit α)
    (rest : List (Fruit α)) (L : Int)
    (hs : s.fruits = a :: b :: rest)
    (ha : a.remove = false) (hb : b.remove = false)
    (hla : a.level = L) (hlb : b.level = L) (hL0 : 0 ≤ L) (hL : L < 10)
    (hca : a.mergeCooldown ≤ 0) (hcb : b.mergeCooldown ≤ 0)
    (hpos : 0 < centreDist sqrtf a b) (hlt : centreDist sqrtf a b < a.radius + b.radius)
    (hscore : InInt64 s.score) (hroom : s.score + (L + 1) * 10 < 2 ^ 63) :
    (readFruitRadius (L + 1) : Option α) = some (tierRadius (L + 1)) ∧
      ResolveCollisions sqrtf s = some
        { fruits :=
            { pos := a.pos, vel := a.vel, level := L + 1, radius := tierRadius (L + 1),
              mergeCooldown := 2 / 5, settled := false, remove := a.remove } ::
            { pos := b.pos, vel := b.vel, level := b.level, radius := b.radius,
              mergeCooldown := b.mergeCooldown, settled := b.settled, remove := true } :: rest
          gameOver := s.gameOver
          hasActiveFruit := s.hasActiveFruit
          score := s.score + (L + 1) * 10
          nextFruitLevel := s.nextFruitLevel } := by
  obtain ⟨r, hr, h⟩ :=
    resolve_first_pair_aux sqrtf s a b rest L hs ha hb hla hlb hL0 hL hca hcb ⟨hpos, hlt⟩
  have ht : (readFruitRadius (L + 1) : Option α) = some (tierRadius (L + 1)) := by
    obtain ⟨n, rfl⟩ := Int.eq_ofNat_of_zero_le hL0
    have hn : n < 10 := by exact_mod_cast hL
    interval_cases n <;> simp [readFruitRadius, FRUIT_RADIUS, tierRadius]
  have er : r = tierRadius (L + 1) := by
    rw [ht] at hr
    exact (Option.some.inj hr).symm
  have hw : wrapInt64 (s.score + (L + 1) * 10) = s.score + (L + 1) * 10 :=
    wrapInt64_of_inRange _ ⟨by have := hscore.1; omega, hroom⟩
  refine ⟨ht, ?_⟩
  rw [h, hw, er]
  simp [upgrade, markRemoved, MERGE_COOLDOWN, hla]

theorem first_pair_merge_witness :
    (readFruitRadius 4 : Option ℚ) = some 44 ∧
      ResolveCollisions ratSqrt threeFruits = some
        { fruits := [⟨⟨100, 100⟩, ⟨1, 2⟩, 4, 44, 2 / 5, false, false⟩,
                     ⟨⟨103, 104⟩, ⟨0, 0⟩, 3, 38, -1, true, true⟩,
                     ⟨⟨300, 300⟩, ⟨0, 0⟩, 7, 68, 1, false, true⟩]
          gameOver := false
          hasActiveFruit := true
          score := 90
          nextFruitLevel := 2 } := by
  have h := first_pair_merge ratSqrt threeFruits ⟨⟨100, 100⟩, ⟨1, 2⟩, 3, 38, 0, true, false⟩
    ⟨⟨103, 104⟩, ⟨0, 0⟩, 3, 38, -1, true, false⟩ [⟨⟨300, 300⟩, ⟨0, 0⟩, 7, 68, 1, false, true⟩] 3
    rfl rfl rfl rfl rfl (by decide) (by decide) (by norm_num) (by norm_num)
    (by norm_num [centreDist, ratSqrt_25]) (by norm_num [centreDist, ratSqrt_25])
    (by norm_num [InInt64, threeFruits]) (by norm_num [threeFruits])
  have e : (tierRadius (3 + 1) : ℚ) = 44 := by norm_num [tierRadius]
  rw [e] at h
  exact ⟨by simp [readFruitRadius, FRUIT_RADIUS], h.2⟩

/-- C4: on a collection of fruits with levels `0 ≤ level`, `ResolveCollisions` returns, and
either no merge was committed (the surviving fruits are the unmarked ones with their
levels, none is marked, `score` is unchanged), or exactly one was: one index `i` has its
level raised from `L < 10` to `L + 1`, one index `j > i` that was unmarked is now marked,
all other levels and marks are as before, and `score` grew by `(L + 1) * 10` (the sum as
a `long long` holds it: exactly the sum whenever that is in range).  When three or more
unmarked fruits of the same level `L < 10`, all off cooldown, overlap pairwise, the merge
is committed, on the fruits at index 0 and 1. -/
theorem at_most_one_merge (sqrtf : α → α) (s : State α)
    (hwf : ∀ f ∈ s.fruits, 0 ≤ f.level) :
    ∃ t, ResolveCollisions sqrtf s = some t ∧
      ((t.fruits.map (fun f => f.level)
            = (s.fruits.filter (fun f => !f.remove)).map (fun f => f.level) ∧
          (∀ f ∈ t.fruits, f.remove = false) ∧ t.score = s.score) ∨
        (∃ i j L, i < j ∧ (s.fruits.map (fun f => f.level))[i]? = some L ∧ L < 10 ∧
          (s.fruits.map (fun f => f.remove))[j]? = some false ∧
          t.fruits.map (fun f => f.level) = (s.fruits.map (fun f => f.level)).set i (L + 1) ∧
          t.fruits.map (fun f => f.remove) = (s.fruits.map (fun f => f.remove)).set j true ∧
          t.score = wrapInt64 (s.score + (L + 1) * 10) ∧
          (InInt64 (s.score + (L + 1) * 10) → t.score = s.score + (L + 1) * 10))) ∧
      (∀ L : Int, 3 ≤ s.fruits.length → L < 10 →
        (∀ f ∈ s.fruits, f.remove = false ∧ f.level = L ∧ f.mergeCooldown ≤ 0) →
        s.fruits.Pairwise (Overlapping sqrtf) →
          t.fruits.map (fun f => f.level) = (s.fruits.map (fun f => f.level)).set 0 (L + 1) ∧
          t.fruits.map (fun f => f.remove) = (s.fruits.map (fun f => f.remove)).set 1 true ∧
          t.score = wrapInt64 (s.score + (L + 1) * 10) ∧
          (InInt64 (s.score + (L + 1) * 10) → t.score = s.score + (L + 1) * 10)) := by
  have hout := outerLoop_outcome sqrtf s.fruits.length 0 s
  have hnf := outerLoop_ne_fault sqrtf s.fruits.length 0 s hwf
  have key : ∃ t, ResolveCollisions sqrtf s = some t ∧
      ((t.fruits.map (fun f => f.level)
            = (s.fruits.filter (fun f => !f.remove)).map (fun f => f.level) ∧
          (∀ f ∈ t.fruits, f.remove = false) ∧ t.score = s.score) ∨
        (∃ i j L, i < j ∧ (s.fruits.map (fun f => f.level))[i]? = some L ∧ L < 10 ∧
          (s.fruits.map (fun f => f.remove))[j]? = some false ∧
          t.fruits.map (fun f => f.level) = (s.fruits.map (fun f => f.level)).set i (L + 1) ∧
          t.fruits.map (fun f => f.remove) = (s.fruits.map (fun f => f.remove)).set j true ∧
          t.score = wrapInt64 (s.score + (L + 1) * 10) ∧
          (InInt64 (s.score + (L + 1) * 10) → t.score = s.score + (L + 1) * 10))) := by
    cases hl : outerLoop sqrtf s.fruits.length 0 s with
    | fault => exact absurd hl hnf
    | next u =>
      rw [hl] at hout
      refine ⟨purge u, by simp [ResolveCollisions, hl], Or.inl ⟨?_, ?_, ?_⟩⟩
      · exact sameUpToPos_map_eq (sameUpToPos_purge hout) (fun f => f.level) (fun _ => rfl)
      · intro f hf
        simp only [purge, List.mem_filter] at hf
        simpa using hf.2
      · exact hout.2.2.2.1
    | ret t =>
      rw [hl] at hout
      obtain ⟨u, i, j, hsu, hm⟩ := hout
      obtain ⟨L, hij, h1, h2, h3, h4, h5, h6⟩ := mergeAt_summary hm
      have el := sameUpToPos_map_eq hsu (fun f => f.level) (fun _ => rfl)
      have er := sameUpToPos_map_eq hsu (fun f => f.remove) (fun _ => rfl)
      rw [el] at h1 h4
      rw [er] at h3 h5
      rw [hsu.2.2.2.1] at h6
      exact ⟨t, by simp [ResolveCollisions, hl], Or.inr ⟨i, j, L, hij, h1, h2, h3, h4, h5, h6,
        fun hr => by rw [h6]; exact wrapInt64_of_inRange _ hr⟩⟩
  obtain ⟨t, ht, hcases⟩ := key
  refine ⟨t, ht, hcases, ?_⟩
  intro L hlen hL hall hpw
  match hf : s.fruits, hlen with
  | a :: b :: c :: rest, _ =>
    rw [hf] at hall hpw hwf
    have ha := hall a (by simp)
    have hb := hall b (by simp)
    have hab : Overlapping sqrtf a b := (List.pairwise_cons.mp hpw).1 b (by simp)
    have hL0 : 0 ≤ L := by rw [← ha.2.1]; exact hwf a (by simp)
    obtain ⟨r, -, hres⟩ := resolve_first_pair_aux sqrtf s a b (c :: rest) L hf ha.1 hb.1
      ha.2.1 hb.2.1 hL0 hL ha.2.2 hb.2.2 hab
    rw [hres] at ht
    cases ht
    refine ⟨?_, ?_, rfl, fun hr => wrapInt64_of_inRange _ hr⟩
    · simp [upgrade, markRemoved, ha.2.1]
    · simp [upgrade, markRemoved, ha.1]

theorem at_most_one_merge_witness :
    ∃ t, ResolveCollisions ratSqrt tripleLevel0 = some t ∧
      t.fruits.map (fun f => f.level) = [1, 0, 0] ∧
      t.fruits.map (fun f => f.remove) = [false, true, false] ∧
      t.score = 10 :=
  have h := at_most_one_merge ratSqrt tripleLevel0 (by simp [tripleLevel0])
  let ⟨t, h1, _, h3⟩ := h
  let ⟨h4, h5, _, h6⟩ := h3 0 (by simp [tripleLevel0]) (by decide) (by simp [tripleLevel0])
    (by norm_num [tripleLevel0, Overlapping, centreDist, ratSqrt_25, ratSqrt_100])
  ⟨t, h1, h4, h5, h6 (by norm_num [InInt64, tripleLevel0])⟩

/-- C5: two unmarked overlapping fruits of equal level, one of them still on cooldown, are
not merged: the call returns the same state with the pair pushed apart; level, radius,
cooldown, `settled`, `remove` and velocity of both fruits and `score` are unchanged, and
the offset between the centres has been stretched by the factor `minDist / dist > 1`. -/
theorem cooldown_blocks_merge (sqrtf : α → α) (s : State α) (a b : Fruit α)
    (hs : s.fruits = [a, b]) (ha : a.remove = false) (hb : b.remove = false)
    (_hlev : a.level = b.level)
    (hpos : 0 < centreDist sqrtf a b) (hlt : centreDist sqrtf a b < a.radius + b.radius)
    (hcd : 0 < a.mergeCooldown ∨ 0 < b.mergeCooldown) :
    ∃ a2 b2 : Fruit α,
      ResolveCollisions sqrtf s = some { s with fruits := [a2, b2] } ∧
      (a2.level = a.level ∧ a2.radius = a.radius ∧ a2.mergeCooldown = a.mergeCooldown ∧
        a2.settled = a.settled ∧ a2.remove = false ∧ a2.vel = a.vel) ∧
      (b2.level = b.level ∧ b2.radius = b.radius ∧ b2.mergeCooldown = b.mergeCooldown ∧
        b2.settled = b.settled ∧ b2.remove = false ∧ b2.vel = b.vel) ∧
      a2.pos = (pushApart sqrtf a b).1.pos ∧ b2.pos = (pushApart sqrtf a b).2.pos ∧
      b2.pos.x - a2.pos.x
        = (b.pos.x - a.pos.x) * ((a.radius + b.radius) / centreDist sqrtf a b) ∧
      b2.pos.y - a2.pos.y
        = (b.pos.y - a.pos.y) * ((a.radius + b.radius) / centreDist sqrtf a b) ∧
      1 < (a.radius + b.radius) / centreDist sqrtf a b := by
  have hm : ¬ canMerge a b := by
    rintro ⟨-, h1, h2, -⟩
    rcases hcd with h | h
    · exact absurd h (not_lt.mpr h1)
    · exact absurd h (not_lt.mpr h2)
  refine ⟨(pushApart sqrtf a b).1, (pushApart sqrtf a b).2,
    resolve_two_push_aux sqrtf s a b hs ha hb ⟨hpos, hlt⟩ hm, ?_, ?_, rfl, rfl,
    (pushApart_offset sqrtf a b hpos).1, (pushApart_offset sqrtf a b hpos).2,
    (one_lt_div hpos).mpr hlt⟩
  · simp [pushApart, ha]
  · simp [pushApart, hb]

theorem cooldown_blocks_merge_witness :
    ∃ a2 b2 : Fruit ℚ,
      ResolveCollisions ratSqrt coolingPair = some { coolingPair with fruits := [a2, b2] } ∧
      (a2.level = 2 ∧ a2.radius = 32 ∧ a2.mergeCooldown = 0 ∧
        a2.settled = true ∧ a2.remove = false ∧ a2.vel = ⟨0, 0⟩) ∧
      (b2.level = 2 ∧ b2.radius = 32 ∧ b2.mergeCooldown = 1 / 10 ∧
        b2.settled = false ∧ b2.remove = false ∧ b2.vel = ⟨0, 3⟩) :=
  have h := cooldown_blocks_merge ratSqrt coolingPair
    ⟨⟨100, 100⟩, ⟨0, 0⟩, 2, 32, 0, true, false⟩ ⟨⟨103, 104⟩, ⟨0, 3⟩, 2, 32, 1 / 10, false, false⟩
    rfl rfl rfl rfl (by norm_num [centreDist, ratSqrt_25]) (by norm_num [centreDist, ratSqrt_25])
    (Or.inr (by norm_num))
  let ⟨a2, b2, h1, h2, h3, _⟩ := h
  ⟨a2, b2, h1, h2, h3⟩

/-- C6: two unmarked overlapping fruits at the top level 10 (hence of radius 100, as read
from the table) are never merged, whatever their cooldowns: the call returns the same
state with the pair pushed apart; both keep level 10 and radius 100, neither is marked,
`score` is unchanged, and nothing but the two positions changes. -/
theorem top_level_never_merges (sqrtf : α → α) (s : State α) (a b : Fruit α)
    (hs : s.fruits = [a, b]) (ha : a.remove = false) (hb : b.remove = false)
    (hla : a.level = 10) (hlb : b.level = 10)
    (hra : readFruitRadius a.level = some a.radius)
    (hrb : readFruitRadius b.level = some b.radius)
    (hpos : 0 < centreDist sqrtf a b) (hlt : centreDist sqrtf a b < a.radius + b.radius) :
    ∃ a2 b2 : Fruit α,
      ResolveCollisions sqrtf s = some { s with fruits := [a2, b2] } ∧
      (a2.level = 10 ∧ a2.radius = 100 ∧ a2.remove = false) ∧
      (b2.level = 10 ∧ b2.radius = 100 ∧ b2.remove = false) ∧
      forgetPos a2 = forgetPos a ∧ forgetPos b2 = forgetPos b ∧
      a2.pos = (pushApart sqrtf a b).1.pos ∧ b2.pos = (pushApart sqrtf a b).2.pos ∧
      b2.pos.x - a2.pos.x
        = (b.pos.x - a.pos.x) * ((a.radius + b.radius) / centreDist sqrtf a b) ∧
      b2.pos.y - a2.pos.y
        = (b.pos.y - a.pos.y) * ((a.radius + b.radius) / centreDist sqrtf a b) ∧
      1 < (a.radius + b.radius) / centreDist sqrtf a b := by
  have hm : ¬ canMerge a b := by
    rintro ⟨-, -, -, h⟩
    rw [hla] at h
    simp [NUM_FRUIT_LEVELS] at h
  rw [hla] at hra
  rw [hlb] at hrb
  have ea := readFruitRadius_ten a.radius hra
  have eb := readFruitRadius_ten b.radius hrb
  refine ⟨(pushApart sqrtf a b).1, (pushApart sqrtf a b).2,
    resolve_two_push_aux sqrtf s a b hs ha hb ⟨hpos, hlt⟩ hm, ?_, ?_,
    forgetPos_pushApart_fst sqrtf a b, forgetPos_pushApart_snd sqrtf a b, rfl, rfl,
    (pushApart_offset sqrtf a b hpos).1, (pushApart_offset sqrtf a b hpos).2,
    (one_lt_div hpos).mpr hlt⟩
  · simp [pushApart, ha, hla, ea]
  · simp [pushApart, hb, hlb, eb]

theorem top_level_never_merges_witness :
    ∃ a2 b2 : Fruit ℚ,
      ResolveCollisions ratSqrt topPair = some { topPair with fruits := [a2, b2] } ∧
      (a2.level = 10 ∧ a2.radius = 100 ∧ a2.remove = false) ∧
      (b2.level = 10 ∧ b2.radius = 100 ∧ b2.remove = false) :=
  have h := top_level_never_merges ratSqrt topPair
    ⟨⟨200, 300⟩, ⟨0, 0⟩, 10, 100, 0, true, false⟩ ⟨⟨203, 304⟩, ⟨0, 0⟩, 10, 100, -1, true, false⟩
    rfl rfl rfl rfl rfl (by simp [readFruitRadius, FRUIT_RADIUS])
    (by simp [readFruitRadius, FRUIT_RADIUS])
    (by norm_num [centreDist, ratSqrt_25]) (by norm_num [centreDist, ratSqrt_25])
  let ⟨a2, b2, h1, h2, h3, _⟩ := h
  ⟨a2, b2, h1, h2, h3⟩

/-- C7: in exact arithmetic (`dist` is a square root of the squared centre offset), two
unmarked overlapping fruits that do not qualify for a merge come out of the call with
their centres exactly `minDist = radiusA + radiusB` apart; each was moved by
`(minDist - dist) / 2` along the unit vector `n` of the original centre line, the first
against `n` and the second along it, and both velocities are unchanged. -/
theorem separation_exact (sqrtf : α → α) (s : State α) (a b : Fruit α)
    (hs : s.fruits = [a, b]) (ha : a.remove = false) (hb : b.remove = false)
    (hpos : 0 < centreDist sqrtf a b) (hlt : centreDist sqrtf a b < a.radius + b.radius)
    (hm : ¬ canMerge a b)
    (hex : centreDist sqrtf a b * centreDist sqrtf a b
      = (b.pos.x - a.pos.x) * (b.pos.x - a.pos.x) + (b.pos.y - a.pos.y) * (b.pos.y - a.pos.y)) :
    ∃ (a2 b2 : Fruit α) (nx ny : α),
      ResolveCollisions sqrtf s = some { s with fruits := [a2, b2] } ∧
      nx = (b.pos.x - a.pos.x) / centreDist sqrtf a b ∧
      ny = (b.pos.y - a.pos.y) / centreDist sqrtf a b ∧
      nx * nx + ny * ny = 1 ∧
      a2.pos.x - a.pos.x = -((a.radius + b.radius - centreDist sqrtf a b) / 2 * nx) ∧
      a2.pos.y - a.pos.y = -((a.radius + b.radius - centreDist sqrtf a b) / 2 * ny) ∧
      b2.pos.x - b.pos.x = (a.radius + b.radius - centreDist sqrtf a b) / 2 * nx ∧
      b2.pos.y - b.pos.y = (a.radius + b.radius - centreDist sqrtf a b) / 2 * ny ∧
      (b2.pos.x - a2.pos.x) * (b2.pos.x - a2.pos.x) + (b2.pos.y - a2.pos.y) * (b2.pos.y - a2.pos.y)
        = (a.radius + b.radius) * (a.radius + b.radius) ∧
      (∀ e : α, 0 ≤ e →
        e * e = (b2.pos.x - a2.pos.x) * (b2.pos.x - a2.pos.x)
          + (b2.pos.y - a2.pos.y) * (b2.pos.y - a2.pos.y) →
        e = a.radius + b.radius) ∧
      a2.vel = a.vel ∧ b2.vel = b.vel := by
  have hne : centreDist sqrtf a b ≠ 0 := ne_of_gt hpos
  have hmin : 0 < a.radius + b.radius := lt_trans hpos hlt
  have hunit : (b.pos.x - a.pos.x) / centreDist sqrtf a b * ((b.pos.x - a.pos.x) / centreDist sqrtf a b)
      + (b.pos.y - a.pos.y) / centreDist sqrtf a b * ((b.pos.y - a.pos.y) / centreDist sqrtf a b)
      = 1 := by
    field_simp
    rw [← hex]
  have hoff := pushApart_offset sqrtf a b hpos
  have hsq : ((pushApart sqrtf a b).2.pos.x - (pushApart sqrtf a b).1.pos.x)
        * ((pushApart sqrtf a b).2.pos.x - (pushApart sqrtf a b).1.pos.x)
      + ((pushApart sqrtf a b).2.pos.y - (pushApart sqrtf a b).1.pos.y)
        * ((pushApart sqrtf a b).2.pos.y - (pushApart sqrtf a b).1.pos.y)
      = (a.radius + b.radius) * (a.radius + b.radius) := by
    rw [hoff.1, hoff.2]
    have : (b.pos.x - a.pos.x) * ((a.radius + b.radius) / centreDist sqrtf a b)
          * ((b.pos.x - a.pos.x) * ((a.radius + b.radius) / centreDist sqrtf a b))
        + (b.pos.y - a.pos.y) * ((a.radius + b.radius) / centreDist sqrtf a b)
          * ((b.pos.y - a.pos.y) * ((a.radius + b.radius) / centreDist sqrtf a b))
        = ((b.pos.x - a.pos.x) * (b.pos.x - a.pos.x) + (b.pos.y - a.pos.y) * (b.pos.y - a.pos.y))
          * ((a.radius + b.radius) / centreDist sqrtf a b)
          * ((a.radius + b.radius) / centreDist sqrtf a b) := by ring
    rw [this, ← hex]
    field_simp
    ring
  refine ⟨(pushApart sqrtf a b).1, (pushApart sqrtf a b).2, _, _,
    resolve_two_push_aux sqrtf s a b hs ha hb ⟨hpos, hlt⟩ hm, rfl, rfl, hunit,
    ?_, ?_, ?_, ?_, hsq, ?_, rfl, rfl⟩
  · simp only [pushApart]; ring
  · simp only [pushApart]; ring
  · simp only [pushApart]; ring
  · simp only [pushApart]; ring
  · intro e he hee
    rw [hsq] at hee
    exact (mul_self_inj he (le_of_lt hmin)).mp hee

theorem separation_exact_witness :
    ∃ (a2 b2 : Fruit ℚ),
      ResolveCollisions ratSqrt mixedPair = some { mixedPair with fruits := [a2, b2] } ∧
      (b2.pos.x - a2.pos.x) * (b2.pos.x - a2.pos.x) + (b2.pos.y - a2.pos.y) * (b2.pos.y - a2.pos.y)
        = 46 * 46 ∧
      a2.vel = ⟨1, 0⟩ ∧ b2.vel = ⟨0, 2⟩ :=
  have h := separation_exact ratSqrt mixedPair
    ⟨⟨100, 100⟩, ⟨1, 0⟩, 0, 20, 0, false, false⟩ ⟨⟨103, 104⟩, ⟨0, 2⟩, 1, 26, 0, false, false⟩
    rfl rfl rfl (by norm_num [centreDist, ratSqrt_25]) (by norm_num [centreDist, ratSqrt_25])
    (by simp [canMerge]) (by norm_num [centreDist, ratSqrt_25])
  let ⟨a2, b2, _, _, h1, _, _, _, _, _, _, _, h2, _, h3, h4⟩ := h
  ⟨a2, b2, h1, by rw [h2]; norm_num, h3, h4⟩

/-- C9 (code as it is): the frame in which the second fruit lands and is merged ends with
`hasActiveFruit = false` although the fruit promoted by the merge has `settled = false`,
so a click in the next frame is honored while an unsettled fruit exists. -/
theorem stale_active_flag :
    ∃ t, simulate ratSqrt idleFrame landingPair = some t ∧ t.hasActiveFruit = false ∧
      ∃ f ∈ t.fruits, f.settled = false ∧ f.remove = false := by
  rw [landingPair_frame]
  exact ⟨_, rfl, rfl, _, List.mem_cons_self _ _, rfl, rfl⟩

/-- C10: an honored spawn with a pending level in `0..10` appends exactly one fruit at the
end of the collection and changes no other fruit; with `r = FRUIT_RADIUS[level]`, the tier
radius of the pending level (20, 26, ..., 100), the new fruit is at
`(clamp x (24 + r) (516 - r), 60)`, has zero velocity, the pending level, radius `r`,
cooldown 0.4, `settled = false`, `remove = false`, and touches no side wall;
`hasActiveFruit` becomes true. -/
theorem honored_spawn (x : α) (rnd : Int → Int → Int) (s : State α)
    (h0 : 0 ≤ s.nextFruitLevel) (h10 : s.nextFruitLevel ≤ 10) :
    (readFruitRadius s.nextFruitLevel : Option α) = some (tierRadius s.nextFruitLevel) ∧
      spawnBlock x rnd s = some
        { fruits := s.fruits ++
            [{ pos := ⟨clamp x (24 + tierRadius s.nextFruitLevel)
                        (516 - tierRadius s.nextFruitLevel), 60⟩,
               vel := ⟨0, 0⟩,
               level := s.nextFruitLevel,
               radius := tierRadius s.nextFruitLevel,
               mergeCooldown := 2 / 5,
               settled := false,
               remove := false }]
          gameOver := s.gameOver
          hasActiveFruit := true
          score := s.score
          nextFruitLevel := GetNextFruitLevel rnd } ∧
      24 ≤ clamp x (24 + tierRadius s.nextFruitLevel) (516 - tierRadius s.nextFruitLevel)
            - tierRadius s.nextFruitLevel ∧
      clamp x (24 + tierRadius s.nextFruitLevel) (516 - tierRadius s.nextFruitLevel)
          + tierRadius s.nextFruitLevel ≤ 516 := by
  have hr : (readFruitRadius s.nextFruitLevel : Option α)
      = some (tierRadius s.nextFruitLevel) := by
    revert h0 h10
    generalize s.nextFruitLevel = lvl
    intro h0 h10
    obtain ⟨n, rfl⟩ := Int.eq_ofNat_of_zero_le h0
    have hn : n ≤ 10 := by exact_mod_cast h10
    interval_cases n <;> simp [readFruitRadius, FRUIT_RADIUS, tierRadius]
  obtain ⟨r0, hr0, hmem⟩ := readFruitRadius_isSome α s.nextFruitLevel h0 h10
  rw [hr] at hr0
  rw [← Option.some.inj hr0] at hmem
  generalize (tierRadius s.nextFruitLevel : α) = r at hr hmem
  have hr246 : r ≤ 246 := by
    simp only [FRUIT_RADIUS, List.mem_cons, List.mem_singleton, List.not_mem_nil, or_false] at hmem
    rcases hmem with h | h | h | h | h | h | h | h | h | h | h <;> rw [h] <;> norm_num
  have hlohi : 24 + r ≤ 516 - r := by linarith
  refine ⟨hr, ?_, ?_, ?_⟩
  · have hx : (if (if x < 24 + r then 24 + r else x) > 516 - r then 516 - r
        else (if x < 24 + r then 24 + r else x)) = clamp x (24 + r) (516 - r) := by
      unfold clamp
      by_cases h1 : x < 24 + r
      · have : ¬ (24 + r > 516 - r) := not_lt.mpr hlohi
        simp [h1, this]
      · simp [h1]
    simp only [spawnBlock, hr, SpawnFruit, WALL_THICKNESS, SCREEN_WIDTH, MERGE_COOLDOWN]
    norm_num
    exact hx
  · unfold clamp
    split_ifs <;> linarith
  · unfold clamp
    split_ifs <;> linarith

theorem honored_spawn_witness :
    (readFruitRadius 4 : Option ℚ) = some 44 ∧
      spawnBlock 5 (fun lo _ => lo) beforeSpawn = some
        { fruits := [⟨⟨100, 716⟩, ⟨0, 0⟩, 0, 20, 0, true, false⟩,
                     ⟨⟨68, 60⟩, ⟨0, 0⟩, 4, 44, 2 / 5, false, false⟩]
          gameOver := false
          hasActiveFruit := true
          score := 0
          nextFruitLevel := 0 } ∧
      (24 : ℚ) ≤ 68 - 44 ∧ (68 : ℚ) + 44 ≤ 516 := by
  have h := honored_spawn (5 : ℚ) (fun lo _ => lo) beforeSpawn (by decide) (by decide)
  have e1 : (tierRadius beforeSpawn.nextFruitLevel : ℚ) = 44 := by
    norm_num [tierRadius, beforeSpawn]
  have e2 : clamp (5 : ℚ) (24 + 44) (516 - 44) = 68 := by norm_num [clamp]
  rw [e1, e2] at h
  exact ⟨by simp [readFruitRadius, FRUIT_RADIUS], h.2⟩

/-- C11: the predicate "every fruit has `0 ≤ level < 11` and `radius = FRUIT_RADIUS[level]`"
holds in the initial state and in every state with an empty collection, and is preserved
by `SpawnFruit` with a level in `0..4`, by `UpdatePhysics` for every `dt` and by
`ResolveCollisions`; under it `SpawnFruit` and `ResolveCollisions` return a state, that
is, every read of `FRUIT_RADIUS` they perform is inside the table. -/
theorem tier_invariant (sqrtf : α → α) :
    (∀ rnd : Int → Int → Int, TierInvariant (initialState α rnd)) ∧
    (∀ s : State α, s.fruits = [] → TierInvariant s) ∧
    (∀ (x : α) (level : Int) (s : State α), 0 ≤ level → level ≤ 4 → TierInvariant s →
      ∃ t, SpawnFruit x level s = some t ∧ TierInvariant t) ∧
    (∀ (dt : α) (s : State α), TierInvariant s → TierInvariant (UpdatePhysics dt s)) ∧
    (∀ s : State α, TierInvariant s →
      ∃ t, ResolveCollisions sqrtf s = some t ∧ TierInvariant t) := by
  refine ⟨?_, ?_, ?_, ?_, ?_⟩
  · intro rnd f hf
    simp [initialState] at hf
  · intro s hs f hf
    rw [hs] at hf
    cases hf
  · intro x level s h0 h4 hs
    obtain ⟨r, hr, -⟩ := readFruitRadius_isSome α level h0 (by omega)
    refine ⟨_, by simp only [SpawnFruit, hr]; rfl, ?_⟩
    intro f hf
    rcases List.mem_append.mp hf with h | h
    · exact hs f h
    · rw [List.mem_singleton] at h
      subst h
      exact ⟨h0, by simp only [NUM_FRUIT_LEVELS]; omega, hr⟩
  · intro dt s hs f hf
    rw [UpdatePhysics_fruits] at hf
    obtain ⟨g, hg, rfl⟩ := List.mem_map.mp hf
    rw [updateFruit_level, updateFruit_radius]
    exact hs g hg
  · intro s hs
    obtain ⟨t, ht⟩ := resolve_isSome_aux sqrtf s (fun f hf => (hs f hf).1)
    refine ⟨t, ht, ?_⟩
    rcases resolve_outcome_aux sqrtf s t ht with ⟨u, hsu, rfl⟩ | ⟨u, i, j, hsu, hm⟩
    · intro f hf
      simp only [purge, List.mem_filter] at hf
      exact sameUpToPos_tier hsu hs f hf.1
    · exact mergeAt_tier hm (sameUpToPos_tier hsu hs)

theorem tier_invariant_witness :
    ∃ t u : State ℚ, SpawnFruit 100 3 (initialState ℚ (fun lo _ => lo)) = some t ∧
      ResolveCollisions ratSqrt (UpdatePhysics (1 / 50) t) = some u ∧ TierInvariant u :=
  have h := tier_invariant ratSqrt
  let ⟨t, ht, hti⟩ := h.2.2.1 100 3 (initialState ℚ (fun lo _ => lo)) (by decide) (by decide)
    (h.1 _)
  let ⟨u, hu, hui⟩ := h.2.2.2.2 (UpdatePhysics (1 / 50) t) (h.2.2.2.1 (1 / 50) t hti)
  ⟨t, u, ht, hu, hui⟩

/-- C12: in a state with `gameOver = true`, a frame in which R is not pressed leaves the
whole state (collection, `score`, `gameOver`, `hasActiveFruit`, pending level) exactly as
it was, whatever `dt` and whether or not a click is present: the simulation block does
nothing and the restart block does nothing. -/
theorem frozen_when_game_over (sqrtf : α → α) (inp : FrameInput α) (s : State α)
    (hg : s.gameOver = true) (hr : inp.keyR = false) :
    simulate sqrtf inp s = some s ∧ restartBlock inp s = s ∧
      mainLoopIteration sqrtf inp s = some s := by
  have h1 : simulate sqrtf inp s = some s := by simp [simulate, hg]
  have h2 : restartBlock inp s = s := by simp [restartBlock, hg, hr]
  exact ⟨h1, h2, by simp [mainLoopIteration, h1, h2]⟩

theorem frozen_when_game_over_witness :
    simulate ratSqrt clickFrame frozenState = some frozenState ∧
      restartBlock clickFrame frozenState = frozenState ∧
      mainLoopIteration ratSqrt clickFrame frozenState = some frozenState :=
  frozen_when_game_over ratSqrt clickFrame frozenState rfl rfl

/-- C14: the table `FRUIT_RADIUS` has exactly 11 entries, they are
20, 26, 32, 38, 44, 52, 60, 68, 78, 88, 100, and every entry is strictly smaller than
the next one. -/
theorem tier_table_increasing (α : Type) [LinearOrderedField α] :
    (FRUIT_RADIUS : List α).length = 11 ∧ NUM_FRUIT_LEVELS = 11 ∧
    (FRUIT_RADIUS : List α) = [20, 26, 32, 38, 44, 52, 60, 68, 78, 88, 100] ∧
    ∀ i : Nat, i < 10 → ∃ r r2 : α, (FRUIT_RADIUS : List α)[i]? = some r ∧
      (FRUIT_RADIUS : List α)[i + 1]? = some r2 ∧ r < r2 := by
  refine ⟨rfl, rfl, rfl, ?_⟩
  intro i hi
  interval_cases i <;> simp [FRUIT_RADIUS] <;> norm_num

theorem tier_table_increasing_witness :
    ∃ r r2 : ℚ, (FRUIT_RADIUS : List ℚ)[9]? = some r ∧
      (FRUIT_RADIUS : List ℚ)[10]? = some r2 ∧ r < r2 :=
  (tier_table_increasing ℚ).2.2.2 9 (by decide)

/-- C15: in a state with `gameOver = true`, a frame in which R is pressed yields the
state with an empty collection, `score = 0`, `gameOver = false`, `hasActiveFruit = false`
and the freshly drawn pending level, all set in the same frame; the pending level is in
`[0, 4]` when the random source keeps to the bounds it is asked for. -/
theorem restart_resets (sqrtf : α → α) (inp : FrameInput α) (s : State α)
    (hg : s.gameOver = true) (hr : inp.keyR = true) (hrnd : WithinBounds inp.rndRestart) :
    ∃ t, mainLoopIteration sqrtf inp s = some t ∧ t = restartBlock inp s ∧
      t.fruits = [] ∧ t.score = 0 ∧ t.gameOver = false ∧ t.hasActiveFruit = false ∧
      t.nextFruitLevel = inp.rndRestart 0 4 ∧ 0 ≤ t.nextFruitLevel ∧ t.nextFruitLevel ≤ 4 := by
  have h1 : simulate sqrtf inp s = some s := by simp [simulate, hg]
  have hb := hrnd 0 4 (by decide)
  refine ⟨restartBlock inp s, by simp [mainLoopIteration, h1], rfl, ?_⟩
  simp only [restartBlock, hg, hr, if_true, GetNextFruitLevel, MIN_SPAWN_LEVEL, MAX_SPAWN_LEVEL]
  exact ⟨trivial, trivial, trivial, trivial, trivial, hb.1, hb.2⟩

theorem restart_resets_witness :
    ∃ t, mainLoopIteration ratSqrt restartFrame frozenState = some t ∧
      t = restartBlock restartFrame frozenState ∧
      t.fruits = [] ∧ t.score = 0 ∧ t.gameOver = false ∧ t.hasActiveFruit = false ∧
      t.nextFruitLevel = 4 ∧ 0 ≤ t.nextFruitLevel ∧ t.nextFruitLevel ≤ 4 :=
  restart_resets ratSqrt restartFrame frozenState rfl rfl
    (fun _ _ h => ⟨h, le_refl _⟩)

/-- C16: for `dt > 0`, a settled fruit with zero velocity that rests tangent to the floor
(`pos.y + radius = 736`) strictly between the side walls comes out of `UpdatePhysics` with
the same position and still settled: gravity moves it below the floor line and the floor
clamp puts it back. -/
theorem resting_fruit_stays (dt : α) (s : State α) (i : Nat) (f : Fruit α)
    (hdt : 0 < dt) (hi : s.fruits[i]? = some f) (hset : f.settled = true)
    (hvx : f.vel.x = 0) (hvy : f.vel.y = 0) (hfloor : f.pos.y + f.radius = 736)
    (hl : 24 < f.pos.x - f.radius) (hr : f.pos.x + f.radius < 516) :
    ∃ g, (UpdatePhysics dt s).fruits[i]? = some g ∧ g.pos = f.pos ∧ g.settled = true := by
  refine ⟨updateFruit dt f, UpdatePhysics_getElem? dt s i f hi, ?_, updateFruit_settled dt f hset⟩
  have hx : (updateFruit dt f).pos.x = f.pos.x := by
    rw [updateFruit_pos_x, hvx]
    have h1 : ¬ (f.pos.x + 0 * dt - f.radius ≤ 24) := by
      rw [zero_mul, add_zero]; exact not_le.mpr hl
    have h2 : ¬ (f.pos.x + 0 * dt + f.radius ≥ 516) := by
      rw [zero_mul, add_zero]; exact not_le.mpr hr
    rw [if_neg h1, if_neg h2, zero_mul, add_zero]
  have hy : (updateFruit dt f).pos.y = f.pos.y := by
    rw [updateFruit_pos_y, hvy]
    have hg : 0 < (0 + 1400 * dt) * dt := by
      rw [zero_add]; exact mul_pos (mul_pos (by norm_num) hdt) hdt
    have h1 : f.pos.y + (0 + 1400 * dt) * dt + f.radius ≥ 736 := by linarith
    rw [if_pos h1]
    linarith
  have hp : ∀ p q : Vector2 α, p.x = q.x → p.y = q.y → p = q := by
    intro p q h1 h2
    cases p; cases q
    simp only at h1 h2
    rw [h1, h2]
  exact hp _ _ hx hy

theorem resting_fruit_stays_witness :
    ∃ g, (UpdatePhysics (1 / 50) landingPair).fruits[0]? = some g ∧
      g.pos = ⟨100, 716⟩ ∧ g.settled = true :=
  resting_fruit_stays (1 / 50) landingPair 0 ⟨⟨100, 716⟩, ⟨0, 0⟩, 0, 20, -1 / 100, true, false⟩
    (by norm_num) rfl rfl rfl rfl (by norm_num) (by norm_num) (by norm_num)

/-- C17 (claim as stated, refuted): the fruit left marked by a merge is moved and
accelerated by the next `UpdatePhysics`; a marked settled fruit above the game-over line
sets `gameOver`; a marked unsettled fruit sets `hasActiveFruit`. -/
theorem marked_body_is_integrated :
    (∃ f g, afterMerge.fruits[1]? = some f ∧ f.remove = true ∧
      (UpdatePhysics (1 / 50) afterMerge).fruits[1]? = some g ∧
      g.pos.y ≠ f.pos.y ∧ g.vel.y ≠ f.vel.y) ∧
    (markedSettled.gameOver = false ∧ (∀ f ∈ markedSettled.fruits, f.remove = true) ∧
      (UpdatePhysics (1 / 50) markedSettled).gameOver = true) ∧
    ((∀ f ∈ markedFalling.fruits, f.remove = true) ∧
      (UpdatePhysics (1 / 50) markedFalling).hasActiveFruit = true) := by
  refine ⟨⟨⟨⟨110, 100⟩, ⟨0, 0⟩, 0, 20, 0, false, true⟩,
    updateFruit (1 / 50) ⟨⟨110, 100⟩, ⟨0, 0⟩, 0, 20, 0, false, true⟩, rfl, rfl, ?_, ?_, ?_⟩,
    ⟨rfl, ?_, ?_⟩, ⟨?_, ?_⟩⟩
  · exact UpdatePhysics_getElem? (1 / 50) afterMerge 1 _ rfl
  · rw [updateFruit_pos_y]; norm_num
  · norm_num [updateFruit, GRAVITY, SCREEN_HEIGHT, SCREEN_WIDTH, WALL_THICKNESS]
  · simp [markedSettled]
  · norm_num [UpdatePhysics, physicsLoop, updateFruit, markedSettled, GRAVITY, SCREEN_HEIGHT,
      SCREEN_WIDTH, WALL_THICKNESS, GAME_OVER_LINE]
  · simp [markedFalling]
  · norm_num [UpdatePhysics, physicsLoop, updateFruit, markedFalling, GRAVITY, SCREEN_HEIGHT,
      SCREEN_WIDTH, WALL_THICKNESS, GAME_OVER_LINE]

/-- C17 (amended): `UpdatePhysics` applies the same per-fruit step to every fruit of the
collection, marked or not: the step does not read `remove` and hands it back unchanged,
so a marked fruit is integrated exactly as the unmarked fruit with the same other fields
would be; and every fruit, marked or not, counts for the recomputed `hasActiveFruit`
and for `gameOver`. -/
theorem physics_ignores_remove (dt : α) (s : State α) :
    (UpdatePhysics dt s).fruits = s.fruits.map (updateFruit dt) ∧
    (∀ (f : Fruit α) (b : Bool),
      updateFruit dt { f with remove := b } = { updateFruit dt f with remove := b }) ∧
    (∀ f : Fruit α, (updateFruit dt f).remove = f.remove) ∧
    ((UpdatePhysics dt s).hasActiveFruit = true ↔
      ∃ f ∈ (UpdatePhysics dt s).fruits, f.settled = false) ∧
    ((UpdatePhysics dt s).gameOver = true ↔
      s.gameOver = true ∨ ∃ f ∈ (UpdatePhysics dt s).fruits,
        f.settled = true ∧ f.pos.y - f.radius < 90) :=
  ⟨UpdatePhysics_fruits dt s, updateFruit_set_remove dt, updateFruit_remove dt,
    UpdatePhysics_active dt s, UpdatePhysics_over dt s⟩

/-- C18: two unmarked fruits for which the computed `dist` is 0 (coincident centres, the
square root of 0 being 0) are skipped, whatever their levels and cooldowns: the call
returns the state exactly as it was, with no merge, no position change, no mark, no
removal and the same `score`. -/
theorem coincident_pair_skipped (sqrtf : α → α) (s : State α) (a b : Fruit α)
    (hs : s.fruits = [a, b]) (ha : a.remove = false) (hb : b.remove = false)
    (hd : centreDist sqrtf a b = 0) :
    ResolveCollisions sqrtf s = some s := by
  have hp : pairBody sqrtf 0 1 s = .next s := by
    simp [pairBody, hs, ha, hb, hd]
  have hpu : purge s = s := by
    apply purge_of_unmarked
    intro f hf
    rw [hs] at hf
    simp only [List.mem_cons, List.mem_singleton, List.not_mem_nil, or_false] at hf
    rcases hf with rfl | rfl
    · exact ha
    · exact hb
  simp [ResolveCollisions, outerLoop, innerLoop, hs] at hp ⊢
  rw [hp]
  simp [hs, innerLoop, hpu]

theorem coincident_pair_skipped_witness :
    ResolveCollisions ratSqrt coincidentPair = some coincidentPair :=
  coincident_pair_skipped ratSqrt coincidentPair
    ⟨⟨100, 100⟩, ⟨0, 0⟩, 0, 20, 0, false, false⟩ ⟨⟨100, 100⟩, ⟨0, 1⟩, 0, 20, 0, false, false⟩
    rfl rfl rfl (centreDist_same_pos ratSqrt _ _ rfl (by simp [ratSqrt]))

/-- C19: whatever its position and velocity before the call, a fruit of radius at most 100
is inside the three walls after `UpdatePhysics`: `24 + radius ≤ pos.x ≤ 516 - radius` and
`pos.y + radius ≤ 736`.  When the left-wall test fires the fruit ends tangent to the left
wall with its horizontal velocity damped once, so the right-wall test did not fire too;
when only the right-wall test fires it ends tangent to the right wall; otherwise the
integrated `x` and the horizontal velocity are kept. -/
theorem stays_inside_walls (dt : α) (s : State α) (i : Nat) (f : Fruit α)
    (hi : s.fruits[i]? = some f) (h100 : f.radius ≤ 100) :
    ∃ g, (UpdatePhysics dt s).fruits[i]? = some g ∧ g.radius = f.radius ∧
      24 + g.radius ≤ g.pos.x ∧ g.pos.x ≤ 516 - g.radius ∧ g.pos.y + g.radius ≤ 736 ∧
      (f.pos.x + f.vel.x * dt - f.radius ≤ 24 →
        g.pos.x = 24 + f.radius ∧ g.vel.x = f.vel.x * -(9 / 20) ∧
          ¬ (g.pos.x + g.radius ≥ 516)) ∧
      (¬ (f.pos.x + f.vel.x * dt - f.radius ≤ 24) →
        f.pos.x + f.vel.x * dt + f.radius ≥ 516 →
        g.pos.x = 516 - f.radius ∧ g.vel.x = f.vel.x * -(9 / 20)) ∧
      (¬ (f.pos.x + f.vel.x * dt - f.radius ≤ 24) →
        ¬ (f.pos.x + f.vel.x * dt + f.radius ≥ 516) →
        g.pos.x = f.pos.x + f.vel.x * dt ∧ g.vel.x = f.vel.x) := by
  have h2r : ¬ (24 + f.radius + f.radius ≥ 516) := by
    intro h
    have : (24 : α) + 100 + 100 < 516 := by norm_num
    linarith
  refine ⟨updateFruit dt f, UpdatePhysics_getElem? dt s i f hi, updateFruit_radius dt f,
    ?_, ?_, ?_, ?_, ?_, ?_⟩
  · rw [updateFruit_radius, updateFruit_pos_x]
    split_ifs <;> linarith
  · rw [updateFruit_radius, updateFruit_pos_x]
    split_ifs <;> linarith
  · rw [updateFruit_radius, updateFruit_pos_y]
    split_ifs <;> linarith
  · intro hL
    rw [updateFruit_radius, updateFruit_pos_x, updateFruit_vel_x, if_pos hL, if_neg h2r,
      if_pos hL, if_neg h2r]
    exact ⟨rfl, rfl, h2r⟩
  · intro hL hR
    rw [updateFruit_pos_x, updateFruit_vel_x, if_neg hL, if_pos hR, if_neg hL, if_pos hR]
    exact ⟨rfl, rfl⟩
  · intro hL hR
    rw [updateFruit_pos_x, updateFruit_vel_x, if_neg hL, if_neg hR, if_neg hL, if_neg hR]
    exact ⟨rfl, rfl⟩

theorem stays_inside_walls_witness :
    ∃ g, (UpdatePhysics (1 / 50) flyingState).fruits[0]? = some g ∧ g.radius = 20 ∧
      24 + g.radius ≤ g.pos.x ∧ g.pos.x ≤ 516 - g.radius ∧ g.pos.y + g.radius ≤ 736 :=
  have h := stays_inside_walls (1 / 50) flyingState 0 flyingFruit rfl
    (by norm_num [flyingFruit])
  let ⟨g, h1, h2, h3, h4, h5, _⟩ := h
  ⟨g, h1, h2, h3, h4, h5⟩

/-- C20: `UpdatePhysics` keeps the number of fruits and every `remove` flag, level and
radius, and a fruit that was settled is still settled after it.  A call of
`ResolveCollisions` that returns state `t` either committed no merge, and then the fruits
of `t` are the unmarked fruits of the start, in order, equal to them in every field but
`pos` (marked fruits are erased, no flag is changed); or it committed one merge on a pair
`i < j`, and then no fruit is created or erased, `settled` is set to false at index `i`,
the index whose level was raised, and nowhere else changed, and `remove` is set to true
at index `j`, which was unmarked, and nowhere else changed.  The call does return on
every collection with levels `0 ≤ level`. -/
theorem one_way_flags (sqrtf : α → α) (dt : α) (s : State α) :
    ((UpdatePhysics dt s).fruits.length = s.fruits.length ∧
      (UpdatePhysics dt s).fruits.map (fun f => f.remove) = s.fruits.map (fun f => f.remove) ∧
      (UpdatePhysics dt s).fruits.map (fun f => f.level) = s.fruits.map (fun f => f.level) ∧
      (UpdatePhysics dt s).fruits.map (fun f => f.radius) = s.fruits.map (fun f => f.radius) ∧
      ∀ (i : Nat) (f : Fruit α), s.fruits[i]? = some f → f.settled = true →
        ∃ g, (UpdatePhysics dt s).fruits[i]? = some g ∧ g.settled = true) ∧
    (∀ t, ResolveCollisions sqrtf s = some t →
      t.fruits.map forgetPos = (s.fruits.filter (fun f => !f.remove)).map forgetPos ∨
      ∃ (i j : Nat) (L : Int), i < j ∧ t.fruits.length = s.fruits.length ∧
        (s.fruits.map (fun f => f.level))[i]? = some L ∧
        t.fruits.map (fun f => f.level) = (s.fruits.map (fun f => f.level)).set i (L + 1) ∧
        t.fruits.map (fun f => f.settled) = (s.fruits.map (fun f => f.settled)).set i false ∧
        (s.fruits.map (fun f => f.remove))[j]? = some false ∧
        t.fruits.map (fun f => f.remove) = (s.fruits.map (fun f => f.remove)).set j true) ∧
    ((∀ f ∈ s.fruits, 0 ≤ f.level) → ∃ t, ResolveCollisions sqrtf s = some t) := by
  refine ⟨⟨?_, ?_, ?_, ?_, ?_⟩, ?_, resolve_isSome_aux sqrtf s⟩
  · rw [UpdatePhysics_fruits, List.length_map]
  · rw [UpdatePhysics_fruits, List.map_map]
    exact List.map_congr_left (fun f _ => updateFruit_remove dt f)
  · rw [UpdatePhysics_fruits, List.map_map]
    exact List.map_congr_left (fun f _ => updateFruit_level dt f)
  · rw [UpdatePhysics_fruits, List.map_map]
    exact List.map_congr_left (fun f _ => updateFruit_radius dt f)
  · intro i f hi hset
    exact ⟨updateFruit dt f, UpdatePhysics_getElem? dt s i f hi, updateFruit_settled dt f hset⟩
  · intro t ht
    rcases resolve_outcome_aux sqrtf s t ht with ⟨u, hsu, rfl⟩ | ⟨u, i, j, hsu, hm⟩
    · exact Or.inl (sameUpToPos_purge hsu).1
    · right
      obtain ⟨L, hij, h1, -, h3, h4, h5, -⟩ := mergeAt_summary hm
      obtain ⟨h6, h7⟩ := mergeAt_settled hm
      rw [sameUpToPos_map_eq hsu (fun f => f.level) (fun _ => rfl)] at h1 h4
      rw [sameUpToPos_map_eq hsu (fun f => f.remove) (fun _ => rfl)] at h3 h5
      rw [sameUpToPos_map_eq hsu (fun f => f.settled) (fun _ => rfl)] at h6
      rw [sameUpToPos_length hsu] at h7
      exact ⟨i, j, L, hij, h7, h1, h4, h6, h3, h5⟩

theorem one_way_flags_witness :
    ∃ t, ResolveCollisions ratSqrt threeFruits = some t :=
  (one_way_flags ratSqrt (1 / 50) threeFruits).2.2 (by simp [threeFruits])

end Claims

end Suika
